import Mathlib

/-
Verification development for the subscription-driven polling relay of the
polymarket-trading-api repository (src/src/services/websocketService.js).

The embedding below translates the WebSocketService class into pure Lean
definitions.  JavaScript objects that flow through the service (parsed JSON
messages, subscription parameter maps, orderbook snapshots) are modelled by
the inductive type JsValue, which also carries the two non-JSON JavaScript
values that the code manipulates: null and undefined.  The mutable fields of
the service (this.clients, this.orderbookSubscriptions, this.orderbookIntervals)
become association lists inside an explicit state record, and every method
becomes a state transformer that additionally reports the frames it sent to
downstream clients, the frames it forwarded to the upstream Polymarket socket,
and any JavaScript exception that escaped to the nearest try/catch.

The external collaborators gammaService.getMarket and clobService.getOrderbook
are out of scope per the specification; they enter the model as an environment
record of fetch functions that either resolve to a value or reject.
-/

/-- JavaScript runtime values as handled by websocketService.js: the six JSON
shapes plus undefined.  Object fields are kept in insertion order, exactly as
JavaScript objects and JSON.stringify preserve them. -/
inductive JsValue where
  | str : String → JsValue
  | num : Int → JsValue
  | bool : Bool → JsValue
  | null : JsValue
  | undef : JsValue
  | arr : List JsValue → JsValue
  | obj : List (String × JsValue) → JsValue

mutual

/-- Boolean structural equality on JsValue (JavaScript deep value equality as
needed for Map keys; the service only ever uses primitive keys, but the model
keeps full generality). -/
def beqV : JsValue → JsValue → Bool
  | .str a, .str b => a == b
  | .num a, .num b => a == b
  | .bool a, .bool b => a == b
  | .null, .null => true
  | .undef, .undef => true
  | .arr a, .arr b => beqL a b
  | .obj a, .obj b => beqF a b
  | _, _ => false

/-- Elementwise equality of JsValue lists. -/
def beqL : List JsValue → List JsValue → Bool
  | [], [] => true
  | x :: xs, y :: ys => beqV x y && beqL xs ys
  | _, _ => false

/-- Fieldwise equality of JsValue object field lists. -/
def beqF : List (String × JsValue) → List (String × JsValue) → Bool
  | [], [] => true
  | (k, x) :: xs, (l, y) :: ys => k == l && beqV x y && beqF xs ys
  | _, _ => false

end

mutual

theorem beqV_refl : ∀ a, beqV a a = true
  | .str _ => by simp [beqV]
  | .num _ => by simp [beqV]
  | .bool _ => by simp [beqV]
  | .null => by simp [beqV]
  | .undef => by simp [beqV]
  | .arr a => by simp [beqV, beqL_refl a]
  | .obj a => by simp [beqV, beqF_refl a]

theorem beqL_refl : ∀ l, beqL l l = true
  | [] => by simp [beqL]
  | x :: xs => by simp [beqL, beqV_refl x, beqL_refl xs]

theorem beqF_refl : ∀ l, beqF l l = true
  | [] => by simp [beqF]
  | (k, x) :: xs => by simp [beqF, beqV_refl x, beqF_refl xs]

end

mutual

theorem eq_of_beqV : ∀ a b, beqV a b = true → a = b
  | .str _, .str _, h => by simp [beqV] at h; simp [h]
  | .num _, .num _, h => by simp [beqV] at h; simp [h]
  | .bool _, .bool _, h => by simp [beqV] at h; simp [h]
  | .null, .null, _ => rfl
  | .undef, .undef, _ => rfl
  | .arr a, .arr b, h => by
      simp only [beqV] at h
      exact congrArg JsValue.arr (eq_of_beqL a b h)
  | .obj a, .obj b, h => by
      simp only [beqV] at h
      exact congrArg JsValue.obj (eq_of_beqF a b h)
  | .str _, .num _, h => by simp [beqV] at h
  | .str _, .bool _, h => by simp [beqV] at h
  | .str _, .null, h => by simp [beqV] at h
  | .str _, .undef, h => by simp [beqV] at h
  | .str _, .arr _, h => by simp [beqV] at h
  | .str _, .obj _, h => by simp [beqV] at h
  | .num _, .str _, h => by simp [beqV] at h
  | .num _, .bool _, h => by simp [beqV] at h
  | .num _, .null, h => by simp [beqV] at h
  | .num _, .undef, h => by simp [beqV] at h
  | .num _, .arr _, h => by simp [beqV] at h
  | .num _, .obj _, h => by simp [beqV] at h
  | .bool _, .str _, h => by simp [beqV] at h
  | .bool _, .num _, h => by simp [beqV] at h
  | .bool _, .null, h => by simp [beqV] at h
  | .bool _, .undef, h => by simp [beqV] at h
  | .bool _, .arr _, h => by simp [beqV] at h
  | .bool _, .obj _, h => by simp [beqV] at h
  | .null, .str _, h => by simp [beqV] at h
  | .null, .num _, h => by simp [beqV] at h
  | .null, .bool _, h => by simp [beqV] at h
  | .null, .undef, h => by simp [beqV] at h
  | .null, .arr _, h => by simp [beqV] at h
  | .null, .obj _, h => by simp [beqV] at h
  | .undef, .str _, h => by simp [beqV] at h
  | .undef, .num _, h => by simp [beqV] at h
  | .undef, .bool _, h => by simp [beqV] at h
  | .undef, .null, h => by simp [beqV] at h
  | .undef, .arr _, h => by simp [beqV] at h
  | .undef, .obj _, h => by simp [beqV] at h
  | .arr _, .str _, h => by simp [beqV] at h
  | .arr _, .num _, h => by simp [beqV] at h
  | .arr _, .bool _, h => by simp [beqV] at h
  | .arr _, .null, h => by simp [beqV] at h
  | .arr _, .undef, h => by simp [beqV] at h
  | .arr _, .obj _, h => by simp [beqV] at h
  | .obj _, .str _, h => by simp [beqV] at h
  | .obj _, .num _, h => by simp [beqV] at h
  | .obj _, .bool _, h => by simp [beqV] at h
  | .obj _, .null, h => by simp [beqV] at h
  | .obj _, .undef, h => by simp [beqV] at h
  | .obj _, .arr _, h => by simp [beqV] at h

theorem eq_of_beqL : ∀ a b, beqL a b = true → a = b
  | [], [], _ => rfl
  | x :: xs, y :: ys, h => by
      simp only [beqL, Bool.and_eq_true] at h
      rw [eq_of_beqV x y h.1, eq_of_beqL xs ys h.2]
  | [], _ :: _, h => by simp [beqL] at h
  | _ :: _, [], h => by simp [beqL] at h

theorem eq_of_beqF : ∀ a b, beqF a b = true → a = b
  | [], [], _ => rfl
  | (k, x) :: xs, (l, y) :: ys, h => by
      simp only [beqF, Bool.and_eq_true] at h
      obtain ⟨⟨h1, h2⟩, h3⟩ := h
      rw [eq_of_beqV x y h2, eq_of_beqF xs ys h3, show k = l from by simpa using h1]
  | [], _ :: _, h => by simp [beqF] at h
  | _ :: _, [], h => by simp [beqF] at h

end

instance : DecidableEq JsValue := fun a b =>
  if h : beqV a b = true then .isTrue (eq_of_beqV a b h)
  else .isFalse (fun he => h (he ▸ beqV_refl a))

/-- Lookup in an association list, modelling JavaScript Map.get (returning
undefined, i.e. none, for a missing key). -/
def mapGet {κ α : Type} [DecidableEq κ] : List (κ × α) → κ → Option α
  | [], _ => none
  | (k, v) :: rest, key => if k = key then some v else mapGet rest key

/-- Update or append in an association list, modelling JavaScript Map.set:
an existing key keeps its insertion position, a new key is appended. -/
def mapSet {κ α : Type} [DecidableEq κ] : List (κ × α) → κ → α → List (κ × α)
  | [], key, v => [(key, v)]
  | (k, w) :: rest, key, v =>
      if k = key then (key, v) :: rest else (k, w) :: mapSet rest key v

/-- Removal from an association list, modelling JavaScript Map.delete. -/
def mapDelete {κ α : Type} [DecidableEq κ] : List (κ × α) → κ → List (κ × α)
  | [], _ => []
  | (k, w) :: rest, key =>
      if k = key then rest else (k, w) :: mapDelete rest key

/-- Membership test, modelling JavaScript Map.has. -/
def mapHas {κ α : Type} [DecidableEq κ] (l : List (κ × α)) (key : κ) : Bool :=
  (mapGet l key).isSome

/-- JavaScript Set.add: a Set never stores duplicates, new elements are
appended in insertion order. -/
def setAdd {α : Type} [DecidableEq α] (l : List α) (a : α) : List α :=
  if a ∈ l then l else l ++ [a]

/-- JavaScript Set.delete: removes the (unique, if the list was built through
setAdd) occurrence of the element. -/
def setDelete {α : Type} [DecidableEq α] (l : List α) (a : α) : List α :=
  l.erase a

/-- JavaScript Set.has. -/
def setHas {α : Type} [DecidableEq α] (l : List α) (a : α) : Bool :=
  decide (a ∈ l)

theorem mapGet_mapSet_self {κ α : Type} [DecidableEq κ]
    (l : List (κ × α)) (k : κ) (v : α) : mapGet (mapSet l k v) k = some v := by
  induction l with
  | nil => simp [mapGet, mapSet]
  | cons hd tl ih =>
      obtain ⟨k0, v0⟩ := hd
      by_cases h : k0 = k <;> simp [mapGet, mapSet, h, ih]

theorem mapGet_mapSet_ne {κ α : Type} [DecidableEq κ]
    (l : List (κ × α)) (k k2 : κ) (v : α) (h : k ≠ k2) :
    mapGet (mapSet l k v) k2 = mapGet l k2 := by
  induction l with
  | nil => simp [mapGet, mapSet, h]
  | cons hd tl ih =>
      obtain ⟨k0, v0⟩ := hd
      by_cases h0 : k0 = k
      · subst h0
        simp [mapGet, mapSet, h]
      · simp only [mapSet, if_neg h0]
        by_cases h2 : k0 = k2 <;> simp [mapGet, h2, ih]

theorem mapGet_eq_none_of_not_mem {κ α : Type} [DecidableEq κ]
    (l : List (κ × α)) (k : κ) (h : k ∉ l.map Prod.fst) : mapGet l k = none := by
  induction l with
  | nil => rfl
  | cons hd tl ih =>
      obtain ⟨k0, v0⟩ := hd
      simp only [List.map_cons, List.mem_cons] at h
      push_neg at h
      simp only [mapGet]
      rw [if_neg (fun he => h.1 he.symm)]
      exact ih h.2

theorem mapGet_mapDelete_self {κ α : Type} [DecidableEq κ]
    (l : List (κ × α)) (k : κ) (hnd : (l.map Prod.fst).Nodup) :
    mapGet (mapDelete l k) k = none := by
  induction l with
  | nil => simp [mapGet, mapDelete]
  | cons hd tl ih =>
      obtain ⟨k0, v0⟩ := hd
      simp only [List.map_cons, List.nodup_cons] at hnd
      by_cases h : k0 = k
      · subst h
        simp only [mapDelete, if_pos rfl]
        exact mapGet_eq_none_of_not_mem tl k0 hnd.1
      · simp only [mapDelete, if_neg h, mapGet]
        exact ih hnd.2

theorem mapGet_mapDelete_ne {κ α : Type} [DecidableEq κ]
    (l : List (κ × α)) (k k2 : κ) (h : k ≠ k2) :
    mapGet (mapDelete l k) k2 = mapGet l k2 := by
  induction l with
  | nil => simp [mapDelete]
  | cons hd tl ih =>
      obtain ⟨k0, v0⟩ := hd
      by_cases h0 : k0 = k
      · subst h0
        have hdel : mapDelete ((k0, v0) :: tl) k0 = tl := by simp [mapDelete]
        rw [hdel]
        simp only [mapGet]
        rw [if_neg h]
      · simp only [mapDelete, if_neg h0, mapGet]
        by_cases h2 : k0 = k2 <;> simp [h2, ih]

theorem mapSet_self_of_get {κ α : Type} [DecidableEq κ]
    (l : List (κ × α)) (k : κ) (v : α) (h : mapGet l k = some v) :
    mapSet l k v = l := by
  induction l with
  | nil => simp [mapGet] at h
  | cons hd tl ih =>
      obtain ⟨k0, v0⟩ := hd
      by_cases h0 : k0 = k
      · subst h0
        have hv : v0 = v := by simpa [mapGet] using h
        subst hv
        simp [mapSet]
      · simp only [mapGet, if_neg h0] at h
        simp [mapSet, if_neg h0, ih h]

theorem mapDelete_of_not_has {κ α : Type} [DecidableEq κ]
    (l : List (κ × α)) (k : κ) (h : mapGet l k = none) :
    mapDelete l k = l := by
  induction l with
  | nil => simp [mapDelete]
  | cons hd tl ih =>
      obtain ⟨k0, v0⟩ := hd
      by_cases h0 : k0 = k
      · subst h0
        simp [mapGet] at h
      · simp only [mapGet, if_neg h0] at h
        simp [mapDelete, if_neg h0, ih h]

theorem setAdd_of_mem {α : Type} [DecidableEq α] (l : List α) (a : α)
    (h : a ∈ l) : setAdd l a = l := by
  simp [setAdd, h]

theorem mem_setAdd_self {α : Type} [DecidableEq α] (l : List α) (a : α) :
    a ∈ setAdd l a := by
  by_cases h : a ∈ l <;> simp [setAdd, h]

theorem setAdd_ne_nil {α : Type} [DecidableEq α] (l : List α) (a : α) :
    setAdd l a ≠ [] := by
  intro h
  exact absurd (h ▸ mem_setAdd_self l a) (List.not_mem_nil a)

theorem setDelete_of_not_mem {α : Type} [DecidableEq α] (l : List α) (a : α)
    (h : a ∉ l) : setDelete l a = l :=
  List.erase_of_not_mem h

/-- Escape of one character inside a JSON string literal, as JSON.stringify
performs it (the service only ever serialises printable text, so quote and
backslash are the relevant escapes). -/
def escapeChar (c : Char) : String :=
  if c = '"' then "\\\"" else if c = '\\' then "\\\\" else String.singleton c

/-- Escape of a whole string for JSON.stringify. -/
def escapeText (s : String) : String :=
  String.join (s.data.map escapeChar)

/-- A JSON string literal: surrounding quotes plus escaped content. -/
def jsonQuote (s : String) : String :=
  "\"" ++ escapeText s ++ "\""

mutual

/-- JSON.stringify on a JavaScript value.  It returns none exactly where the
real JSON.stringify returns undefined (a top-level undefined); object fields
whose value is undefined are dropped, and undefined inside an array serialises
as null.  Object fields are emitted in insertion order: JSON.stringify does
not sort keys. -/
def jsonStringify : JsValue → Option String
  | .str s => some (jsonQuote s)
  | .num n => some (toString n)
  | .bool b => some (if b then ("true") else ("false"))
  | .null => some ("null")
  | .undef => none
  | .arr l => some ("[" ++ stringifyElems l ++ "]")
  | .obj fs => some ("\x7b" ++ stringifyFields fs ++ "\x7d")

/-- Array elements joined by commas; null and undefined elements print as
null. -/
def stringifyElems : List JsValue → String
  | [] => ""
  | [x] => (jsonStringify x).getD ("null")
  | x :: xs => (jsonStringify x).getD ("null") ++ "," ++ stringifyElems xs

/-- Object fields joined by commas, skipping fields whose value is
undefined. -/
def stringifyFields : List (String × JsValue) → String
  | [] => ""
  | (k, v) :: rest =>
      match jsonStringify v with
      | none => stringifyFields rest
      | some sv =>
          match rest, stringifyFields rest with
          | [], _ => jsonQuote k ++ ":" ++ sv
          | _, "" => jsonQuote k ++ ":" ++ sv
          | _, r => jsonQuote k ++ ":" ++ sv ++ "," ++ r

end

mutual

/-- JavaScript string coercion as performed by a template literal such as
the backtick string building the subscription key.  Arrays stringify by
joining their elements with commas (null and undefined elements become
empty), objects print as [object Object]. -/
def jsTemplate : JsValue → String
  | .str s => s
  | .num n => toString n
  | .bool b => if b then ("true") else ("false")
  | .null => "null"
  | .undef => "undefined"
  | .obj _ => "[object Object]"
  | .arr l => templElems l

/-- Comma join for array string coercion. -/
def templElems : List JsValue → String
  | [] => ""
  | x :: xs =>
      let hd := match x with
        | .null => ""
        | .undef => ""
        | v => jsTemplate v
      match xs with
      | [] => hd
      | _ => hd ++ "," ++ templElems xs

end

/-- The JavaScript value of a possibly absent binding: a missing object field
or a failed destructuring yields undefined. -/
def optVal : Option JsValue → JsValue
  | none => .undef
  | some v => v

/-- JavaScript property read v.f on a value that is known not to be
undefined or null is total: objects look the field up, every other value
yields undefined. -/
def jsField : JsValue → String → Option JsValue
  | .obj fields, f => mapGet fields f
  | _, _ => none

/-- JavaScript property read v.f with exception behaviour: reading a property
of undefined or null throws a TypeError, which the service only ever catches
at the message handler boundary. -/
def jsMember : JsValue → String → Except String (Option JsValue)
  | .undef, _ => .error ("TypeError: cannot read properties of undefined")
  | .null, _ => .error ("TypeError: cannot read properties of null")
  | v, f => .ok (jsField v f)

/-- JavaScript property read on a possibly-undefined binding. -/
def jsMemberOpt (v : Option JsValue) (f : String) : Except String (Option JsValue) :=
  jsMember (optVal v) f

/-- JavaScript truthiness of the value of an expression that may evaluate to
undefined (an absent field). -/
def truthy : Option JsValue → Bool
  | none => false
  | some .null => false
  | some .undef => false
  | some (.bool b) => b
  | some (.num n) => decide (n ≠ 0)
  | some (.str s) => decide (s ≠ "")
  | some (.arr _) => true
  | some (.obj _) => true

/-- Fields contributed by an object spread such as ...params: an object
spreads its own fields, strings and arrays spread index keyed entries, and
every primitive (null, undefined, numbers, booleans) contributes nothing.
The JavaScript reordering that places integer-like keys first is not modelled;
no claim inspects the field order of the forwarded upstream frame. -/
def spreadFields : JsValue → List (String × JsValue)
  | .obj fs => fs
  | .arr l => l.enum.map (fun p => (toString p.1, p.2))
  | .str s => s.data.enum.map (fun p => (toString p.1, JsValue.str (String.singleton p.2)))
  | _ => []

/-- An object literal written with possibly duplicated keys (relevant when a
spread follows fixed fields): later occurrences of a key overwrite earlier
ones, as in JavaScript. -/
def objLiteral (pairs : List (String × JsValue)) : List (String × JsValue) :=
  pairs.foldl (fun acc kv => mapSet acc kv.1 kv.2) []

/-- Identity of one downstream WebSocket connection, as produced by
generateClientId. -/
abbrev ClientId := String

/-- The per-connection record stored in this.clients: the transport handle,
here reduced to whether ws.readyState === WebSocket.OPEN, and the Set of
subscription keys. -/
structure ClientState where
  wsOpen : Bool
  subscriptions : List String
deriving DecidableEq

/-- The mutable fields of the WebSocketService singleton.  Market ids are
JavaScript values because subscribeToOrderbook receives params.market_id
unchecked.  The polymarketConnected flag stands for
this.polymarketWs && this.polymarketWs.readyState === WebSocket.OPEN, and
nextIntervalId supplies the opaque ids returned by setInterval. -/
structure WebSocketService where
  clients : List (ClientId × ClientState)
  polymarketConnected : Bool
  orderbookSubscriptions : List (JsValue × List ClientId)
  orderbookIntervals : List (JsValue × Nat)
  nextIntervalId : Nat
deriving DecidableEq

/-- The poll cadence this.orderbookPollInterval, in milliseconds. -/
def orderbookPollInterval : Nat := 2000

/-- The state of the service as constructed: no clients, no subscriptions,
no intervals; the Polymarket feed starts disconnected. -/
def initialService : WebSocketService :=
  ⟨[], false, [], [], 0⟩

/-- Translation of sendToClient: the frame is delivered only when the client
is registered and its transport is open, otherwise it is silently dropped.
The method never mutates state, so it returns just the delivered frames
(zero or one). -/
def sendToClient (s : WebSocketService) (clientId : ClientId) (data : JsValue) :
    List (ClientId × JsValue) :=
  match mapGet s.clients clientId with
  | some client => if client.wsOpen then [(clientId, data)] else []
  | none => []

/-- Translation of stopOrderbookPolling: clearInterval plus removal of the
interval map entry, guarded by the entry existing. -/
def stopOrderbookPolling (s : WebSocketService) (marketId : JsValue) :
    WebSocketService :=
  match mapGet s.orderbookIntervals marketId with
  | some _ => { s with orderbookIntervals := mapDelete s.orderbookIntervals marketId }
  | none => s

/-- Translation of startOrderbookPolling: any existing interval for this
market is cleared first, then a fresh interval id is recorded.  The immediate
this.pollOrderbook(marketId) call is a fire-and-forget async call that only
reads state; its deliveries are modelled by pollOrderbook below, and the
recurring cadence by pollCycleStart. -/
def startOrderbookPolling (s : WebSocketService) (marketId : JsValue) :
    WebSocketService :=
  let s1 := match mapGet s.orderbookIntervals marketId with
    | some _ => { s with orderbookIntervals := mapDelete s.orderbookIntervals marketId }
    | none => s
  { s1 with
    orderbookIntervals := mapSet s1.orderbookIntervals marketId s1.nextIntervalId,
    nextIntervalId := s1.nextIntervalId + 1 }

/-- The final line of subscribeToOrderbook, factored out:
this.orderbookSubscriptions.get(marketId).add(clientId), i.e. a Set.add on
the stored subscriber set (in-place mutation, rendered as a write-back). -/
def addSubscriber (s : WebSocketService) (clientId : ClientId)
    (marketId : JsValue) : WebSocketService :=
  match mapGet s.orderbookSubscriptions marketId with
  | some subscribers =>
      { s with orderbookSubscriptions :=
          mapSet s.orderbookSubscriptions marketId (setAdd subscribers clientId) }
  | none => s

/-- Translation of subscribeToOrderbook: create the subscriber set and start
polling on the first subscriber for the market, then add the client to the
set (Set.add, hence idempotent per client). -/
def subscribeToOrderbook (s : WebSocketService) (clientId : ClientId)
    (marketId : JsValue) : WebSocketService :=
  let s1 := if mapHas s.orderbookSubscriptions marketId then s
    else
      startOrderbookPolling
        { s with orderbookSubscriptions := mapSet s.orderbookSubscriptions marketId [] }
        marketId
  addSubscriber s1 clientId marketId

/-- Translation of unsubscribeFromOrderbook: remove the client from the
market set if the set exists; when the set becomes empty, stop polling and
drop the set.  JavaScript mutates the Set object in place, which the model
renders as writing the shrunken set back into the map. -/
def unsubscribeFromOrderbook (s : WebSocketService) (clientId : ClientId)
    (marketId : JsValue) : WebSocketService :=
  match mapGet s.orderbookSubscriptions marketId with
  | none => s
  | some subscribers =>
      let subscribers2 := setDelete subscribers clientId
      let written := mapSet s.orderbookSubscriptions marketId subscribers2
      let s1 := { s with orderbookSubscriptions := written }
      if subscribers2.length = 0 then
        let s2 := stopOrderbookPolling s1 marketId
        { s2 with orderbookSubscriptions := mapDelete s2.orderbookSubscriptions marketId }
      else s1

/-- Translation of cleanupClientSubscriptions: iterate over the orderbook
subscription map and unsubscribe the client from every market whose set
contains it.  The JavaScript forEach walks the live map; an iteration step
can only delete the entry it is visiting, so folding over the snapshot of
keys with a fresh lookup per step is equivalent. -/
def cleanupClientSubscriptions (s : WebSocketService) (clientId : ClientId) :
    WebSocketService :=
  (s.orderbookSubscriptions.map Prod.fst).foldl
    (fun acc marketId =>
      match mapGet acc.orderbookSubscriptions marketId with
      | some subscribers =>
          if setHas subscribers clientId
          then unsubscribeFromOrderbook acc clientId marketId
          else acc
      | none => acc)
    s

/-- Translation of the ws close handler in the connection setup: clean up the
subscriptions of the client and discard its connection record. -/
def closeClient (s : WebSocketService) (clientId : ClientId) : WebSocketService :=
  let s1 := cleanupClientSubscriptions s clientId
  { s1 with clients := mapDelete s1.clients clientId }

/-- Outcome of running one client-facing handler: the state after all
mutations, the frames delivered to downstream clients, the frames written to
the upstream Polymarket socket, and the exception, if any, that escaped the
handler (to be caught and logged by the message callback). -/
structure HandlerResult where
  state : WebSocketService
  sent : List (ClientId × JsValue)
  upstream : List JsValue
  err : Option String
deriving DecidableEq

/-- Translation of the template literal building the subscription key in
handleSubscribe and handleUnsubscribe. -/
def buildSubscriptionKey (channel params : Option JsValue) : String :=
  jsTemplate (optVal channel) ++ ":" ++
    (match jsonStringify (optVal params) with
     | some t => t
     | none => "undefined")

/-- Translation of handleSubscribe.  The destructuring of data, the key
construction and the Set.add happen before the orderbook guard, so a
TypeError raised by reading params.market_id (params being undefined or
null) leaves the freshly added subscription key behind.  The guard
channel === "orderbook" && params.market_id only evaluates params.market_id
when the channel matches, and subscribeToOrderbook runs only when that field
is truthy. -/
def handleSubscribe (s : WebSocketService) (clientId : ClientId) (data : JsValue) :
    HandlerResult :=
  match mapGet s.clients clientId with
  | none => ⟨s, [], [], none⟩
  | some client =>
      match jsMember data ("channel"), jsMember data ("params") with
      | .error e, _ => ⟨s, [], [], some e⟩
      | .ok _, .error e => ⟨s, [], [], some e⟩
      | .ok channel, .ok params =>
          let subscriptionKey := buildSubscriptionKey channel params
          let client1 := { client with subscriptions := setAdd client.subscriptions subscriptionKey }
          let s1 := { s with clients := mapSet s.clients clientId client1 }
          match (if channel = some (JsValue.str ("orderbook"))
                 then jsMemberOpt params ("market_id")
                 else Except.ok none) with
          | .error e => ⟨s1, [], [], some e⟩
          | .ok marketIdField =>
              let s2 := if truthy marketIdField
                then subscribeToOrderbook s1 clientId (optVal marketIdField)
                else s1
              let upstreamMsgs := if s2.polymarketConnected
                then [JsValue.obj (objLiteral
                  ([(("type"), JsValue.str ("subscribe")), (("channel"), optVal channel)]
                    ++ spreadFields (optVal params)))]
                else []
              let ack := JsValue.obj
                [(("type"), JsValue.str ("subscribed")),
                 (("channel"), optVal channel),
                 (("params"), optVal params)]
              ⟨s2, sendToClient s2 clientId ack, upstreamMsgs, none⟩

/-- Translation of handleUnsubscribe, mirroring handleSubscribe with
Set.delete and without the upstream forward. -/
def handleUnsubscribe (s : WebSocketService) (clientId : ClientId) (data : JsValue) :
    HandlerResult :=
  match mapGet s.clients clientId with
  | none => ⟨s, [], [], none⟩
  | some client =>
      match jsMember data ("channel"), jsMember data ("params") with
      | .error e, _ => ⟨s, [], [], some e⟩
      | .ok _, .error e => ⟨s, [], [], some e⟩
      | .ok channel, .ok params =>
          let subscriptionKey := buildSubscriptionKey channel params
          let client1 := { client with subscriptions := setDelete client.subscriptions subscriptionKey }
          let s1 := { s with clients := mapSet s.clients clientId client1 }
          match (if channel = some (JsValue.str ("orderbook"))
                 then jsMemberOpt params ("market_id")
                 else Except.ok none) with
          | .error e => ⟨s1, [], [], some e⟩
          | .ok marketIdField =>
              let s2 := if truthy marketIdField
                then unsubscribeFromOrderbook s1 clientId (optVal marketIdField)
                else s1
              let ack := JsValue.obj
                [(("type"), JsValue.str ("unsubscribed")),
                 (("channel"), optVal channel),
                 (("params"), optVal params)]
              ⟨s2, sendToClient s2 clientId ack, [], none⟩

/-- Translation of handleClientMessage: unknown client ids return before
anything is read, then the switch dispatches on data.type (whose read throws
for a null message, caught upstream). -/
def handleClientMessage (s : WebSocketService) (clientId : ClientId) (data : JsValue) :
    HandlerResult :=
  match mapGet s.clients clientId with
  | none => ⟨s, [], [], none⟩
  | some _ =>
      match jsMember data ("type") with
      | .error e => ⟨s, [], [], some e⟩
      | .ok t =>
          if t = some (JsValue.str ("subscribe")) then handleSubscribe s clientId data
          else if t = some (JsValue.str ("unsubscribe")) then handleUnsubscribe s clientId data
          else if t = some (JsValue.str ("ping")) then
            ⟨s, sendToClient s clientId (JsValue.obj [(("type"), JsValue.str ("pong"))]), [], none⟩
          else ⟨s, [], [], none⟩

/-- Translation of the ws message callback registered by the server setup:
JSON.parse and handleClientMessage run inside one try/catch, so a parse
failure or a handler exception is logged and absorbed; the mutations the
handler performed before throwing survive, every later step of the handler is
skipped, and the connection is left as it was. -/
def wsOnMessage (s : WebSocketService) (clientId : ClientId)
    (parsed : Except String JsValue) :
    WebSocketService × List (ClientId × JsValue) × List JsValue :=
  match parsed with
  | .error _ => (s, [], [])
  | .ok data =>
      let r := handleClientMessage s clientId data
      (r.state, r.sent, r.upstream)

/-- Translation of isClientSubscribed: the coarse interest heuristic that
only asks whether the client holds any subscription at all. -/
def isClientSubscribed (client : ClientState) (_message : JsValue) : Bool :=
  decide (client.subscriptions.length > 0)

/-- Translation of broadcastPolymarketData: walk all clients in insertion
order and send the raw upstream message to those the heuristic selects. -/
def broadcastPolymarketData (s : WebSocketService) (message : JsValue) :
    List (ClientId × JsValue) :=
  s.clients.foldr
    (fun entry acc =>
      (if isClientSubscribed entry.2 message then sendToClient s entry.1 message else []) ++ acc)
    []

/-- The external resource fetchers used by pollOrderbook: gammaService.getMarket
and clobService.getOrderbook.  Both are out-of-scope collaborators; one record
value describes their behaviour (resolution value or rejection) during one
poll cycle. -/
structure FetchEnv where
  getMarket : JsValue → Except String JsValue
  getOrderbook : JsValue → Except String JsValue

/-- One element of the combined orderbookData array built by pollOrderbook:
token_id and outcome read from the market token, plus the fetched orderbook. -/
def orderbookEntry (token orderbook : JsValue) : Except String JsValue := do
  let tokenId ← jsMember token ("token_id")
  let outcome ← jsMember token ("outcome")
  pure (JsValue.obj
    [(("token_id"), optVal tokenId),
     (("outcome"), optVal outcome),
     (("orderbook"), orderbook)])

/-- The orderbook update frame pollOrderbook broadcasts to subscribers. -/
def orderbookMessage (marketId : JsValue) (orderbookData : List JsValue)
    (timestamp : String) : JsValue :=
  JsValue.obj
    [(("type"), JsValue.str ("orderbook")),
     (("market_id"), marketId),
     (("orderbook"), JsValue.arr orderbookData),
     (("timestamp"), JsValue.str timestamp)]

/-- The fetch-and-assemble phase of pollOrderbook: getMarket, the
market/tokens presence checks (which skip the cycle with a warning,
rendered as none), the getOrderbook fan-out over the tokens, and the
assembly of the combined orderbookData array.  A rejected fetch or a
TypeError (null token, non-array tokens value) propagates as an error to
the catch of pollOrderbook.  The source maps getOrderbook over the tokens
and then zips tokens with the fetched orderbooks by index; the zip below
is that index pairing. -/
def fetchOrderbookData (env : FetchEnv) (marketId : JsValue) :
    Except String (Option (List JsValue)) := do
  let market ← env.getMarket marketId
  if ¬ truthy (some market) then
    pure none
  else do
    let tokens ← jsMember market ("tokens")
    if ¬ truthy tokens then
      pure none
    else
      match optVal tokens with
      | .arr tokenList => do
          let orderbooks ← tokenList.mapM (fun token => do
            let tokenId ← jsMember token ("token_id")
            env.getOrderbook (optVal tokenId))
          let orderbookData ← (tokenList.zip orderbooks).mapM
            (fun p => orderbookEntry p.1 p.2)
          pure (some orderbookData)
      | _ => .error ("TypeError: market.tokens.map is not a function")

/-- The broadcast tail of pollOrderbook (its last dozen lines): look up the
market subscriber set at delivery time and send the update frame to each
subscriber through sendToClient.  The method never writes to the service
state. -/
def broadcastOrderbook (s : WebSocketService) (marketId : JsValue)
    (message : JsValue) : List (ClientId × JsValue) :=
  match mapGet s.orderbookSubscriptions marketId with
  | some subscribers =>
      if subscribers.length > 0 then
        subscribers.foldr (fun c acc => sendToClient s c message ++ acc) []
      else []
  | none => []

/-- Translation of the body of pollOrderbook, i.e. everything inside its
try block: the fetch phase, then the broadcast of the assembled update
frame.  The method only reads this.orderbookSubscriptions; it assigns to no
field of the service, so the translation returns just the delivered
frames. -/
def pollOrderbookBody (env : FetchEnv) (s : WebSocketService) (marketId : JsValue)
    (timestamp : String) : Except String (List (ClientId × JsValue)) := do
  match ← fetchOrderbookData env marketId with
  | none => pure []
  | some orderbookData =>
      pure (broadcastOrderbook s marketId (orderbookMessage marketId orderbookData timestamp))

/-- Translation of pollOrderbook: the catch block logs any error and skips
the cycle, delivering nothing; the recurring schedule is untouched either
way, since the method never writes to the service state. -/
def pollOrderbook (env : FetchEnv) (s : WebSocketService) (marketId : JsValue)
    (timestamp : String) : List (ClientId × JsValue) :=
  match pollOrderbookBody env s marketId timestamp with
  | .ok frames => frames
  | .error _ => []

/-- Deliveries of a run of consecutive poll cycles against a fixed service
state, one fetch environment per cycle.  The state is fixed across cycles
precisely because pollOrderbook contains no assignment to any field of the
service: only subscribe and unsubscribe operations change the registry or
the interval pool. -/
def runPollCycles (envs : List FetchEnv) (s : WebSocketService) (marketId : JsValue)
    (timestamp : String) : List (List (ClientId × JsValue)) :=
  envs.map (fun env => pollOrderbook env s marketId timestamp)

/-- Start time, in milliseconds from startOrderbookPolling, of the k-th fetch
cycle of a PollTask: cycle 0 is the immediate this.pollOrderbook call and
setInterval fires the following cycles at a fixed cadence, regardless of
whether the promise started by an earlier cycle has settled. -/
def pollCycleStart (k : Nat) : Nat :=
  k * orderbookPollInterval

/-- The k-th fetch cycle is in flight at time t when t lies between the
cycle start and its completion, the cycle taking dur k milliseconds (the
latency of the awaited gammaService and clobService calls). -/
def pollCycleInFlight (dur : Nat → Nat) (t k : Nat) : Prop :=
  pollCycleStart k ≤ t ∧ t < pollCycleStart k + dur k

instance (dur : Nat → Nat) (t k : Nat) : Decidable (pollCycleInFlight dur t k) :=
  inferInstanceAs (Decidable (And _ _))

theorem mapGet_isSome_of_mem_keys {κ α : Type} [DecidableEq κ]
    (l : List (κ × α)) (k : κ) :
    k ∈ l.map Prod.fst → (mapGet l k).isSome := by
  induction l with
  | nil => simp
  | cons hd tl ih =>
      obtain ⟨k0, v0⟩ := hd
      intro h
      rw [List.map_cons, List.mem_cons] at h
      by_cases h0 : k0 = k
      · simp [mapGet, h0]
      · simp only [mapGet, if_neg h0]
        rcases h with h | h
        · exact absurd h.symm h0
        · exact ih h

theorem keys_mapSet {κ α : Type} [DecidableEq κ] (l : List (κ × α)) (k : κ) (v : α) :
    (mapSet l k v).map Prod.fst =
      if (mapGet l k).isNone then l.map Prod.fst ++ [k] else l.map Prod.fst := by
  induction l with
  | nil => simp [mapSet, mapGet]
  | cons hd tl ih =>
      obtain ⟨k0, v0⟩ := hd
      by_cases h0 : k0 = k
      · subst h0
        simp [mapSet, mapGet]
      · simp only [mapSet, if_neg h0, List.map_cons, mapGet, ih]
        by_cases hg : (mapGet tl k).isNone <;> simp [hg, if_neg h0]

theorem nodupKeys_mapSet {κ α : Type} [DecidableEq κ]
    (l : List (κ × α)) (k : κ) (v : α)
    (h : (l.map Prod.fst).Nodup) : ((mapSet l k v).map Prod.fst).Nodup := by
  rw [keys_mapSet]
  by_cases hg : (mapGet l k).isNone
  · have hk : k ∉ l.map Prod.fst := fun hm => by
      have h2 := mapGet_isSome_of_mem_keys l k hm
      rw [Option.isNone_iff_eq_none] at hg
      rw [hg] at h2
      simp at h2
    simp [if_pos hg, List.nodup_append, h, hk]
  · simp [if_neg hg, h]

theorem mapDelete_sublist {κ α : Type} [DecidableEq κ]
    (l : List (κ × α)) (k : κ) : (mapDelete l k).Sublist l := by
  induction l with
  | nil => simp [mapDelete]
  | cons hd tl ih =>
      obtain ⟨k0, v0⟩ := hd
      by_cases h : k0 = k
      · simp only [mapDelete, if_pos h]
        exact List.sublist_cons_self _ _
      · simp only [mapDelete, if_neg h]
        exact ih.cons₂ _

theorem nodupKeys_mapDelete {κ α : Type} [DecidableEq κ]
    (l : List (κ × α)) (k : κ)
    (h : (l.map Prod.fst).Nodup) : ((mapDelete l k).map Prod.fst).Nodup :=
  ((mapDelete_sublist l k).map Prod.fst).nodup h

/-- The PollTask pool and subscription registry invariant of the service:
an interval (PollTask) entry exists for a market exactly when a subscriber
set exists for it, every stored subscriber set is nonempty, and the two maps
have no duplicated keys. -/
def RegistryInv (s : WebSocketService) : Prop :=
  (∀ m : JsValue, mapHas s.orderbookIntervals m = mapHas s.orderbookSubscriptions m) ∧
  (∀ (m : JsValue) (subs : List ClientId),
      mapGet s.orderbookSubscriptions m = some subs → subs ≠ []) ∧
  (s.orderbookSubscriptions.map Prod.fst).Nodup ∧
  (s.orderbookIntervals.map Prod.fst).Nodup

/-- A connection currently holds a market key when it appears in the market
subscriber set of the registry. -/
def holdsKey (s : WebSocketService) (clientId : ClientId) (marketId : JsValue) : Prop :=
  ∃ subs, mapGet s.orderbookSubscriptions marketId = some subs ∧ clientId ∈ subs

/-- The registry-facing operations a population of N connections can perform
against the orderbook PollTask pool: subscribing to a market, unsubscribing
from it, and the connection-close cleanup. -/
inductive RegistryOp where
  | subscribe (clientId : ClientId) (marketId : JsValue)
  | unsubscribe (clientId : ClientId) (marketId : JsValue)
  | close (clientId : ClientId)

/-- Apply one registry operation through the corresponding service method. -/
def applyRegistryOp (s : WebSocketService) : RegistryOp → WebSocketService
  | .subscribe c m => subscribeToOrderbook s c m
  | .unsubscribe c m => unsubscribeFromOrderbook s c m
  | .close c => closeClient s c

/-- Run a sequence of registry operations from a starting state. -/
def runRegistryOps (ops : List RegistryOp) (s : WebSocketService) : WebSocketService :=
  ops.foldl applyRegistryOp s

theorem startOrderbookPolling_subs (s : WebSocketService) (m : JsValue) :
    (startOrderbookPolling s m).orderbookSubscriptions = s.orderbookSubscriptions := by
  unfold startOrderbookPolling
  cases mapGet s.orderbookIntervals m <;> simp

theorem startOrderbookPolling_clients (s : WebSocketService) (m : JsValue) :
    (startOrderbookPolling s m).clients = s.clients := by
  unfold startOrderbookPolling
  cases mapGet s.orderbookIntervals m <;> simp

theorem stopOrderbookPolling_subs (s : WebSocketService) (m : JsValue) :
    (stopOrderbookPolling s m).orderbookSubscriptions = s.orderbookSubscriptions := by
  unfold stopOrderbookPolling
  cases mapGet s.orderbookIntervals m <;> simp

theorem stopOrderbookPolling_clients (s : WebSocketService) (m : JsValue) :
    (stopOrderbookPolling s m).clients = s.clients := by
  unfold stopOrderbookPolling
  cases mapGet s.orderbookIntervals m <;> simp

theorem mapSet_mapSet {κ α : Type} [DecidableEq κ]
    (l : List (κ × α)) (k : κ) (v w : α) :
    mapSet (mapSet l k v) k w = mapSet l k w := by
  induction l with
  | nil => simp [mapSet]
  | cons hd tl ih =>
      obtain ⟨k0, v0⟩ := hd
      by_cases h : k0 = k <;> simp [mapSet, h, ih]

theorem startOrderbookPolling_nextId (s : WebSocketService) (m : JsValue) :
    (startOrderbookPolling s m).nextIntervalId = s.nextIntervalId + 1 := by
  unfold startOrderbookPolling
  cases mapGet s.orderbookIntervals m <;> simp

theorem startOrderbookPolling_connected (s : WebSocketService) (m : JsValue) :
    (startOrderbookPolling s m).polymarketConnected = s.polymarketConnected := by
  unfold startOrderbookPolling
  cases mapGet s.orderbookIntervals m <;> simp

theorem startOrderbookPolling_intervals_of_none (s : WebSocketService) (m : JsValue)
    (h : mapGet s.orderbookIntervals m = none) :
    (startOrderbookPolling s m).orderbookIntervals =
      mapSet s.orderbookIntervals m s.nextIntervalId := by
  unfold startOrderbookPolling
  rw [h]

theorem stopOrderbookPolling_intervals_of_some (s : WebSocketService) (m : JsValue)
    (i : Nat) (h : mapGet s.orderbookIntervals m = some i) :
    (stopOrderbookPolling s m).orderbookIntervals = mapDelete s.orderbookIntervals m := by
  unfold stopOrderbookPolling
  rw [h]

theorem stopOrderbookPolling_nextId (s : WebSocketService) (m : JsValue) :
    (stopOrderbookPolling s m).nextIntervalId = s.nextIntervalId := by
  unfold stopOrderbookPolling
  cases mapGet s.orderbookIntervals m <;> simp

theorem stopOrderbookPolling_connected (s : WebSocketService) (m : JsValue) :
    (stopOrderbookPolling s m).polymarketConnected = s.polymarketConnected := by
  unfold stopOrderbookPolling
  cases mapGet s.orderbookIntervals m <;> simp

theorem addSubscriber_clients (s : WebSocketService) (c : ClientId) (m : JsValue) :
    (addSubscriber s c m).clients = s.clients := by
  unfold addSubscriber
  cases mapGet s.orderbookSubscriptions m <;> simp

theorem addSubscriber_connected (s : WebSocketService) (c : ClientId) (m : JsValue) :
    (addSubscriber s c m).polymarketConnected = s.polymarketConnected := by
  unfold addSubscriber
  cases mapGet s.orderbookSubscriptions m <;> simp

theorem addSubscriber_intervals (s : WebSocketService) (c : ClientId) (m : JsValue) :
    (addSubscriber s c m).orderbookIntervals = s.orderbookIntervals := by
  unfold addSubscriber
  cases mapGet s.orderbookSubscriptions m <;> simp

theorem subscribeToOrderbook_clients (s : WebSocketService) (c : ClientId) (m : JsValue) :
    (subscribeToOrderbook s c m).clients = s.clients := by
  unfold subscribeToOrderbook
  by_cases h : mapHas s.orderbookSubscriptions m
  · simp [h, addSubscriber_clients]
  · simp [h, addSubscriber_clients, startOrderbookPolling_clients]

theorem subscribeToOrderbook_connected (s : WebSocketService) (c : ClientId) (m : JsValue) :
    (subscribeToOrderbook s c m).polymarketConnected = s.polymarketConnected := by
  unfold subscribeToOrderbook
  by_cases h : mapHas s.orderbookSubscriptions m
  · simp [h, addSubscriber_connected]
  · simp [h, addSubscriber_connected, startOrderbookPolling_connected]

theorem unsubscribeFromOrderbook_clients (s : WebSocketService) (c : ClientId) (m : JsValue) :
    (unsubscribeFromOrderbook s c m).clients = s.clients := by
  unfold unsubscribeFromOrderbook
  cases mapGet s.orderbookSubscriptions m with
  | none => rfl
  | some subs =>
      by_cases h : (setDelete subs c).length = 0 <;>
        simp [h, stopOrderbookPolling_clients]

theorem unsubscribeFromOrderbook_connected (s : WebSocketService) (c : ClientId) (m : JsValue) :
    (unsubscribeFromOrderbook s c m).polymarketConnected = s.polymarketConnected := by
  unfold unsubscribeFromOrderbook
  cases mapGet s.orderbookSubscriptions m with
  | none => rfl
  | some subs =>
      by_cases h : (setDelete subs c).length = 0 <;>
        simp [h, stopOrderbookPolling_connected]

theorem cleanupClientSubscriptions_clients (s : WebSocketService) (c : ClientId) :
    (cleanupClientSubscriptions s c).clients = s.clients := by
  unfold cleanupClientSubscriptions
  generalize (s.orderbookSubscriptions.map Prod.fst) = keys
  induction keys generalizing s with
  | nil => rfl
  | cons m rest ih =>
      simp only [List.foldl_cons]
      rw [ih]
      cases mapGet s.orderbookSubscriptions m with
      | none => rfl
      | some subs =>
          by_cases h : setHas subs c <;>
            simp [h, unsubscribeFromOrderbook_clients]

theorem addSubscriber_subs_of_some (s : WebSocketService) (c : ClientId) (m : JsValue)
    (subs : List ClientId) (h : mapGet s.orderbookSubscriptions m = some subs) :
    (addSubscriber s c m).orderbookSubscriptions =
      mapSet s.orderbookSubscriptions m (setAdd subs c) := by
  unfold addSubscriber
  rw [h]

theorem addSubscriber_of_mem (s : WebSocketService) (c : ClientId) (m : JsValue)
    (l : List ClientId) (h : mapGet s.orderbookSubscriptions m = some l) (hc : c ∈ l) :
    addSubscriber s c m = s := by
  unfold addSubscriber
  rw [h]
  show { s with orderbookSubscriptions := mapSet s.orderbookSubscriptions m (setAdd l c) } = s
  rw [setAdd_of_mem l c hc, mapSet_self_of_get _ _ _ h]

theorem subscribeToOrderbook_of_has (s : WebSocketService) (c : ClientId) (m : JsValue)
    (hh : mapHas s.orderbookSubscriptions m = true) :
    subscribeToOrderbook s c m = addSubscriber s c m := by
  unfold subscribeToOrderbook
  simp [hh]

theorem subscribeToOrderbook_subs_of_some (s : WebSocketService) (c : ClientId) (m : JsValue)
    (subs : List ClientId) (h : mapGet s.orderbookSubscriptions m = some subs) :
    (subscribeToOrderbook s c m).orderbookSubscriptions =
      mapSet s.orderbookSubscriptions m (setAdd subs c) := by
  rw [subscribeToOrderbook_of_has s c m (by simp [mapHas, h])]
  exact addSubscriber_subs_of_some s c m subs h

theorem subscribeToOrderbook_intervals_of_some (s : WebSocketService) (c : ClientId)
    (m : JsValue) (subs : List ClientId)
    (h : mapGet s.orderbookSubscriptions m = some subs) :
    (subscribeToOrderbook s c m).orderbookIntervals = s.orderbookIntervals := by
  rw [subscribeToOrderbook_of_has s c m (by simp [mapHas, h])]
  exact addSubscriber_intervals s c m

theorem subscribeToOrderbook_of_not_has (s : WebSocketService) (c : ClientId) (m : JsValue)
    (hh : mapHas s.orderbookSubscriptions m = false) :
    subscribeToOrderbook s c m =
      addSubscriber
        (startOrderbookPolling
          { s with orderbookSubscriptions := mapSet s.orderbookSubscriptions m [] } m)
        c m := by
  unfold subscribeToOrderbook
  simp [hh]

theorem subscribeToOrderbook_subs_of_none (s : WebSocketService) (c : ClientId) (m : JsValue)
    (h : mapGet s.orderbookSubscriptions m = none) :
    (subscribeToOrderbook s c m).orderbookSubscriptions =
      mapSet s.orderbookSubscriptions m [c] := by
  rw [subscribeToOrderbook_of_not_has s c m (by simp [mapHas, h])]
  have h1 : mapGet (startOrderbookPolling
      { s with orderbookSubscriptions := mapSet s.orderbookSubscriptions m [] }
      m).orderbookSubscriptions m = some [] := by
    rw [startOrderbookPolling_subs]
    exact mapGet_mapSet_self _ _ _
  rw [addSubscriber_subs_of_some _ c m [] h1, startOrderbookPolling_subs]
  have h2 : setAdd ([] : List ClientId) c = [c] := by simp [setAdd]
  rw [h2]
  exact mapSet_mapSet _ _ _ _

theorem subscribeToOrderbook_intervals_of_none (s : WebSocketService) (c : ClientId)
    (m : JsValue) (h : mapGet s.orderbookSubscriptions m = none)
    (hi : mapGet s.orderbookIntervals m = none) :
    (subscribeToOrderbook s c m).orderbookIntervals =
      mapSet s.orderbookIntervals m s.nextIntervalId := by
  rw [subscribeToOrderbook_of_not_has s c m (by simp [mapHas, h])]
  rw [addSubscriber_intervals]
  rw [startOrderbookPolling_intervals_of_none _ _ (by simpa using hi)]

theorem subscribeToOrderbook_idem (s : WebSocketService) (c : ClientId) (m : JsValue) :
    subscribeToOrderbook (subscribeToOrderbook s c m) c m = subscribeToOrderbook s c m := by
  have hmem : ∃ l, mapGet (subscribeToOrderbook s c m).orderbookSubscriptions m = some l
      ∧ c ∈ l := by
    cases hg : mapGet s.orderbookSubscriptions m with
    | some subs =>
        refine ⟨setAdd subs c, ?_, mem_setAdd_self subs c⟩
        rw [subscribeToOrderbook_subs_of_some s c m subs hg]
        exact mapGet_mapSet_self _ _ _
    | none =>
        refine ⟨[c], ?_, by simp⟩
        rw [subscribeToOrderbook_subs_of_none s c m hg]
        exact mapGet_mapSet_self _ _ _
  obtain ⟨l, hl, hc⟩ := hmem
  rw [subscribeToOrderbook_of_has _ c m (by simp [mapHas, hl])]
  exact addSubscriber_of_mem _ c m l hl hc

theorem unsubscribeFromOrderbook_of_none (s : WebSocketService) (c : ClientId) (m : JsValue)
    (h : mapGet s.orderbookSubscriptions m = none) :
    unsubscribeFromOrderbook s c m = s := by
  unfold unsubscribeFromOrderbook
  rw [h]

theorem unsubscribeFromOrderbook_keep (s : WebSocketService) (c : ClientId) (m : JsValue)
    (subs : List ClientId) (h : mapGet s.orderbookSubscriptions m = some subs)
    (hl : (setDelete subs c).length ≠ 0) :
    unsubscribeFromOrderbook s c m =
      { s with orderbookSubscriptions :=
          mapSet s.orderbookSubscriptions m (setDelete subs c) } := by
  unfold unsubscribeFromOrderbook
  rw [h]
  simp [hl]

theorem unsubscribeFromOrderbook_teardown_subs (s : WebSocketService) (c : ClientId)
    (m : JsValue) (subs : List ClientId)
    (h : mapGet s.orderbookSubscriptions m = some subs)
    (hl : (setDelete subs c).length = 0) :
    (unsubscribeFromOrderbook s c m).orderbookSubscriptions =
      mapDelete (mapSet s.orderbookSubscriptions m (setDelete subs c)) m := by
  unfold unsubscribeFromOrderbook
  rw [h]
  simp [hl, stopOrderbookPolling_subs]

theorem unsubscribeFromOrderbook_teardown_intervals_of_some (s : WebSocketService)
    (c : ClientId) (m : JsValue) (subs : List ClientId) (i : Nat)
    (h : mapGet s.orderbookSubscriptions m = some subs)
    (hl : (setDelete subs c).length = 0)
    (hi : mapGet s.orderbookIntervals m = some i) :
    (unsubscribeFromOrderbook s c m).orderbookIntervals =
      mapDelete s.orderbookIntervals m := by
  unfold unsubscribeFromOrderbook
  rw [h]
  simp only [hl, reduceIte]
  rw [show (stopOrderbookPolling
      { s with orderbookSubscriptions := mapSet s.orderbookSubscriptions m (setDelete subs c) }
      m).orderbookIntervals = mapDelete s.orderbookIntervals m from
    stopOrderbookPolling_intervals_of_some _ m i (by simpa using hi)]

theorem registryInv_subscribe (s : WebSocketService) (c : ClientId) (m : JsValue)
    (h : RegistryInv s) : RegistryInv (subscribeToOrderbook s c m) := by
  obtain ⟨h1, h2, h3, h4⟩ := h
  cases hg : mapGet s.orderbookSubscriptions m with
  | some subs =>
      have hsubs := subscribeToOrderbook_subs_of_some s c m subs hg
      have hint := subscribeToOrderbook_intervals_of_some s c m subs hg
      refine ⟨?_, ?_, ?_, ?_⟩
      · intro x
        rw [hint, hsubs]
        by_cases hx : m = x
        · subst hx
          simp only [mapHas, mapGet_mapSet_self]
          have := h1 m
          simp only [mapHas, hg] at this ⊢
          simp [this]
        · simp only [mapHas, mapGet_mapSet_ne _ _ _ _ hx]
          exact h1 x
      · intro x lsubs hx
        rw [hsubs] at hx
        by_cases hxm : m = x
        · subst hxm
          rw [mapGet_mapSet_self] at hx
          cases hx
          exact setAdd_ne_nil _ _
        · rw [mapGet_mapSet_ne _ _ _ _ hxm] at hx
          exact h2 x lsubs hx
      · rw [hsubs]
        exact nodupKeys_mapSet _ _ _ h3
      · rw [hint]
        exact h4
  | none =>
      have hio : mapGet s.orderbookIntervals m = none := by
        have hx := h1 m
        simp only [mapHas, hg, Option.isSome_none] at hx
        cases hgi : mapGet s.orderbookIntervals m with
        | none => rfl
        | some i => rw [hgi] at hx; simp at hx
      have hsubs := subscribeToOrderbook_subs_of_none s c m hg
      have hint := subscribeToOrderbook_intervals_of_none s c m hg hio
      refine ⟨?_, ?_, ?_, ?_⟩
      · intro x
        rw [hint, hsubs]
        by_cases hx : m = x
        · subst hx
          simp [mapHas, mapGet_mapSet_self]
        · simp only [mapHas, mapGet_mapSet_ne _ _ _ _ hx]
          exact h1 x
      · intro x lsubs hx
        rw [hsubs] at hx
        by_cases hxm : m = x
        · subst hxm
          rw [mapGet_mapSet_self] at hx
          cases hx
          simp
        · rw [mapGet_mapSet_ne _ _ _ _ hxm] at hx
          exact h2 x lsubs hx
      · rw [hsubs]
        exact nodupKeys_mapSet _ _ _ h3
      · rw [hint]
        exact nodupKeys_mapSet _ _ _ h4

theorem registryInv_unsubscribe (s : WebSocketService) (c : ClientId) (m : JsValue)
    (h : RegistryInv s) : RegistryInv (unsubscribeFromOrderbook s c m) := by
  obtain ⟨h1, h2, h3, h4⟩ := h
  cases hg : mapGet s.orderbookSubscriptions m with
  | none =>
      rw [unsubscribeFromOrderbook_of_none s c m hg]
      exact ⟨h1, h2, h3, h4⟩
  | some subs =>
      by_cases hl : (setDelete subs c).length = 0
      · have hii : mapHas s.orderbookIntervals m = true := by
          rw [h1 m]
          simp [mapHas, hg]
        obtain ⟨i, hi⟩ : ∃ i, mapGet s.orderbookIntervals m = some i := by
          cases hgi : mapGet s.orderbookIntervals m with
          | none => simp [mapHas, hgi] at hii
          | some i => exact ⟨i, rfl⟩
        have hsubs := unsubscribeFromOrderbook_teardown_subs s c m subs hg hl
        have hint := unsubscribeFromOrderbook_teardown_intervals_of_some s c m subs i hg hl hi
        have hnodup2 : ((mapSet s.orderbookSubscriptions m (setDelete subs c)).map Prod.fst).Nodup :=
          nodupKeys_mapSet _ _ _ h3
        refine ⟨?_, ?_, ?_, ?_⟩
        · intro x
          rw [hint, hsubs]
          by_cases hx : m = x
          · subst hx
            simp only [mapHas, mapGet_mapDelete_self _ _ h4,
              mapGet_mapDelete_self _ _ hnodup2]
            rfl
          · simp only [mapHas, mapGet_mapDelete_ne _ _ _ hx,
              mapGet_mapSet_ne _ _ _ _ hx]
            exact h1 x
        · intro x lsubs hx
          rw [hsubs] at hx
          by_cases hxm : m = x
          · subst hxm
            rw [mapGet_mapDelete_self _ _ hnodup2] at hx
            cases hx
          · rw [mapGet_mapDelete_ne _ _ _ hxm, mapGet_mapSet_ne _ _ _ _ hxm] at hx
            exact h2 x lsubs hx
        · rw [hsubs]
          exact nodupKeys_mapDelete _ _ hnodup2
        · rw [hint]
          exact nodupKeys_mapDelete _ _ h4
      · rw [unsubscribeFromOrderbook_keep s c m subs hg hl]
        refine ⟨?_, ?_, ?_, ?_⟩
        · intro x
          by_cases hx : m = x
          · subst hx
            simp only [mapHas, mapGet_mapSet_self]
            have := h1 m
            simp only [mapHas, hg] at this ⊢
            simp [this]
          · simp only [mapHas, mapGet_mapSet_ne _ _ _ _ hx]
            exact h1 x
        · intro x lsubs hx
          by_cases hxm : m = x
          · subst hxm
            rw [mapGet_mapSet_self] at hx
            cases hx
            intro he
            exact hl (by rw [he]; rfl)
          · rw [mapGet_mapSet_ne _ _ _ _ hxm] at hx
            exact h2 x lsubs hx
        · exact nodupKeys_mapSet _ _ _ h3
        · exact h4

theorem registryInv_foldl {β : Type} (step : WebSocketService → β → WebSocketService)
    (hstep : ∀ s b, RegistryInv s → RegistryInv (step s b)) :
    ∀ (l : List β) (s : WebSocketService), RegistryInv s → RegistryInv (l.foldl step s) := by
  intro l
  induction l with
  | nil => intro s h; exact h
  | cons b bs ih => intro s h; exact ih _ (hstep s b h)

theorem registryInv_cleanup (s : WebSocketService) (c : ClientId)
    (h : RegistryInv s) : RegistryInv (cleanupClientSubscriptions s c) := by
  unfold cleanupClientSubscriptions
  refine registryInv_foldl _ ?_ _ s h
  intro s2 m h2
  cases mapGet s2.orderbookSubscriptions m with
  | none => exact h2
  | some subs =>
      by_cases hh : setHas subs c
      · simpa [hh] using registryInv_unsubscribe s2 c m h2
      · simpa [hh] using h2

theorem registryInv_close (s : WebSocketService) (c : ClientId)
    (h : RegistryInv s) : RegistryInv (closeClient s c) := by
  unfold closeClient
  have h2 := registryInv_cleanup s c h
  obtain ⟨h1, hne, h3, h4⟩ := h2
  exact ⟨h1, hne, h3, h4⟩

theorem registryInv_initial : RegistryInv initialService := by
  refine ⟨?_, ?_, ?_, ?_⟩ <;> simp [initialService, mapHas, mapGet]

theorem registryInv_run (ops : List RegistryOp) :
    RegistryInv (runRegistryOps ops initialService) := by
  unfold runRegistryOps
  refine registryInv_foldl _ ?_ _ _ registryInv_initial
  intro s op h
  cases op with
  | subscribe c m => exact registryInv_subscribe s c m h
  | unsubscribe c m => exact registryInv_unsubscribe s c m h
  | close c => exact registryInv_close s c h

theorem cleanup_of_not_held (s : WebSocketService) (c : ClientId)
    (hall : ∀ m2 subs, mapGet s.orderbookSubscriptions m2 = some subs → c ∉ subs) :
    cleanupClientSubscriptions s c = s := by
  unfold cleanupClientSubscriptions
  generalize s.orderbookSubscriptions.map Prod.fst = keys
  induction keys with
  | nil => rfl
  | cons m2 rest ih =>
      simp only [List.foldl_cons]
      cases hg2 : mapGet s.orderbookSubscriptions m2 with
      | none => exact ih
      | some subs =>
          have hns : setHas subs c = false := by
            simp [setHas, hall m2 subs hg2]
          simp only [hns, Bool.false_eq_true, if_false]
          exact ih

/-- C2: over every sequence of subscribe, unsubscribe and connection-close
operations starting from the freshly constructed service, a PollTask (an
orderbookIntervals entry) for a market exists exactly when at least one
connection is currently in that market subscriber set; and subscribing the
same client to the same market a second time is a complete no-op on the
service state, so a duplicate subscription neither double-counts the
reference count nor creates a second PollTask. -/
theorem C2_polltask_iff_held (ops : List RegistryOp) (m : JsValue)
    (s : WebSocketService) (c : ClientId) :
    (mapHas (runRegistryOps ops initialService).orderbookIntervals m = true ↔
       ∃ c2, holdsKey (runRegistryOps ops initialService) c2 m) ∧
    subscribeToOrderbook (subscribeToOrderbook s c m) c m = subscribeToOrderbook s c m := by
  constructor
  · obtain ⟨h1, h2, _h3, _h4⟩ := registryInv_run ops
    rw [h1 m]
    constructor
    · intro hh
      cases hgs : mapGet (runRegistryOps ops initialService).orderbookSubscriptions m with
      | none => simp [mapHas, hgs] at hh
      | some subs =>
          have hne := h2 m subs hgs
          cases subs with
          | nil => exact absurd rfl hne
          | cons c0 rest => exact ⟨c0, c0 :: rest, hgs, by simp⟩
    · rintro ⟨c2, subs, hgs, hc⟩
      simp [mapHas, hgs]
  · exact subscribeToOrderbook_idem s c m

/-- C6: for every connection, live or gone, unsubscribing from a market it
does not currently hold — the market either has no subscriber set or has a
(necessarily nonempty, by the registry invariant) set the client is not in —
is a benign no-op on the whole service state, and the translation is total,
so no error can be raised (first conjunct).  Independently, the close
cleanup of a connection that is already gone, holding nothing and absent
from the client map, leaves the state unchanged as well (second
conjunct). -/
theorem C6_unheld_noop (s : WebSocketService) (c : ClientId) (m : JsValue) :
    ((∀ subs, mapGet s.orderbookSubscriptions m = some subs → c ∉ subs ∧ subs ≠ []) →
      unsubscribeFromOrderbook s c m = s) ∧
    ((∀ m2 subs, mapGet s.orderbookSubscriptions m2 = some subs → c ∉ subs) →
      mapGet s.clients c = none →
      closeClient s c = s) := by
  constructor
  · intro hm
    cases hg : mapGet s.orderbookSubscriptions m with
    | none => exact unsubscribeFromOrderbook_of_none s c m hg
    | some subs =>
        obtain ⟨hcm, hne⟩ := hm subs hg
        have hdel : setDelete subs c = subs := setDelete_of_not_mem subs c hcm
        have hlen : (setDelete subs c).length ≠ 0 := by
          rw [hdel]
          intro h0
          exact hne (List.length_eq_zero.mp h0)
        rw [unsubscribeFromOrderbook_keep s c m subs hg hlen, hdel,
          mapSet_self_of_get _ _ _ hg]
  · intro hall hc
    unfold closeClient
    rw [cleanup_of_not_held s c hall]
    show { s with clients := mapDelete s.clients c } = s
    rw [mapDelete_of_not_has _ _ hc]

/-- A service with two live open clients: c1 is registered but holds no
market, c2 holds market M1 and backs its PollTask. -/
def pairService : WebSocketService :=
  ⟨[(("c1"), ClientState.mk true []), (("c2"), ClientState.mk true [("k1")])], false,
   [(JsValue.str ("M1"), [("c2")])], [(JsValue.str ("M1"), 0)], 1⟩

/-- Witness for C6 at concrete inputs: a live, registered, open client (c1)
unsubscribing from a market whose nonempty subscriber set belongs to another
connection is a no-op, and closing a ghost client id on the fresh service is
a no-op. -/
theorem C6_unheld_noop_witness :
    unsubscribeFromOrderbook pairService ("c1") (JsValue.str ("M1")) = pairService ∧
    closeClient initialService ("ghost") = initialService :=
  ⟨(C6_unheld_noop pairService ("c1") (JsValue.str ("M1"))).1
    (by
      intro subs h
      have he : mapGet pairService.orderbookSubscriptions (JsValue.str ("M1")) =
          some [("c2")] := by decide
      rw [he] at h
      injection h with h2
      subst h2
      exact ⟨by decide, by decide⟩),
   (C6_unheld_noop initialService ("ghost") (JsValue.str ("M1"))).2
    (by intro m2 subs h; simp [initialService, mapGet] at h)
    rfl⟩

/-- C1 counterexample: the claim that at most one fetch cycle per PollTask is
in flight at any instant is false for the setInterval schedule of
startOrderbookPolling.  With a fetch latency of 3000 ms against the 2000 ms
poll cadence, cycles 0 and 1 of the same market are both in flight at
t = 2000 ms, so the universally quantified claim fails. -/
theorem C1_single_flight_counterexample :
    pollCycleInFlight (fun _ => 3000) 2000 0 ∧
    pollCycleInFlight (fun _ => 3000) 2000 1 ∧
    ¬ (∀ (dur : Nat → Nat) (t k j : Nat),
        pollCycleInFlight dur t k → pollCycleInFlight dur t j → k = j) := by
  refine ⟨by decide, by decide, fun h => ?_⟩
  have h01 := h (fun _ => 3000) 2000 0 1 (by decide) (by decide)
  exact absurd h01 (by decide)

/-- C1 amended: setInterval starts a fetch cycle at every fixed
orderbookPollInterval tick regardless of whether the previous cycle settled,
so overlapping in-flight fetches for one market are possible; at most one
cycle is in flight at any instant exactly under the additional assumption
that every fetch completes within the poll interval. -/
theorem C1_single_flight_of_fast_fetch (dur : Nat → Nat)
    (h : ∀ k, dur k ≤ orderbookPollInterval) (t k j : Nat)
    (hk : pollCycleInFlight dur t k) (hj : pollCycleInFlight dur t j) : k = j := by
  have hdk := h k
  have hdj := h j
  unfold pollCycleInFlight pollCycleStart at hk hj
  unfold orderbookPollInterval at hdk hdj hk hj
  obtain ⟨hk1, hk2⟩ := hk
  obtain ⟨hj1, hj2⟩ := hj
  omega

/-- Witness for the amended C1 theorem at a concrete fast-fetch input. -/
theorem C1_single_flight_of_fast_fetch_witness :
    pollCycleInFlight (fun _ => 1000) 500 0 ∧ (0 : Nat) = 0 :=
  ⟨by decide,
   C1_single_flight_of_fast_fetch (fun _ => 1000)
     (fun _ => (by decide : (1000 : Nat) ≤ 2000)) 500 0 0
     (by decide) (by decide)⟩

/-- C10: an inbound subscribe, unsubscribe or ping message whose connection
id is absent from the client registry returns before anything is read or
written: the state is untouched, no frame is sent downstream or upstream,
and no exception is raised, for every message payload. -/
theorem C10_unknown_client_noop (s : WebSocketService) (c : ClientId) (data : JsValue)
    (h : mapGet s.clients c = none) :
    handleClientMessage s c data = ⟨s, [], [], none⟩ := by
  unfold handleClientMessage
  rw [h]

/-- Witness for C10: a ping frame from an unknown client against the fresh
service. -/
theorem C10_unknown_client_noop_witness :
    handleClientMessage initialService ("ghost")
        (JsValue.obj [(("type"), JsValue.str ("ping"))]) =
      ⟨initialService, [], [], none⟩ :=
  C10_unknown_client_noop initialService ("ghost")
    (JsValue.obj [(("type"), JsValue.str ("ping"))]) rfl

theorem addSubscriber_nextId (s : WebSocketService) (c : ClientId) (m : JsValue) :
    (addSubscriber s c m).nextIntervalId = s.nextIntervalId := by
  unfold addSubscriber
  cases mapGet s.orderbookSubscriptions m <;> simp

theorem startOrderbookPolling_intervals_eq (s : WebSocketService) (m : JsValue) :
    (startOrderbookPolling s m).orderbookIntervals =
      mapSet (mapDelete s.orderbookIntervals m) m s.nextIntervalId := by
  unfold startOrderbookPolling
  cases hg : mapGet s.orderbookIntervals m with
  | some i => simp
  | none => simp [mapDelete_of_not_has _ _ hg]

theorem addSubscriber_subs_congr (sA sB : WebSocketService) (c : ClientId) (m : JsValue)
    (hs : sA.orderbookSubscriptions = sB.orderbookSubscriptions) :
    (addSubscriber sA c m).orderbookSubscriptions =
      (addSubscriber sB c m).orderbookSubscriptions := by
  unfold addSubscriber
  rw [hs]
  cases mapGet sB.orderbookSubscriptions m <;> simp [hs]

/-- The subscription registry and PollTask pool effect of subscribeToOrderbook
depends only on the registry fields of the state: two states agreeing on
orderbookSubscriptions, orderbookIntervals and nextIntervalId produce equal
registry fields after the same subscribe call.  This is what lets two
subscribe requests that differ elsewhere (for example in the client record)
share one PollTask. -/
theorem subscribeToOrderbook_registry_congr (sA sB : WebSocketService)
    (c : ClientId) (m : JsValue)
    (hs : sA.orderbookSubscriptions = sB.orderbookSubscriptions)
    (hi : sA.orderbookIntervals = sB.orderbookIntervals)
    (hn : sA.nextIntervalId = sB.nextIntervalId) :
    (subscribeToOrderbook sA c m).orderbookSubscriptions =
      (subscribeToOrderbook sB c m).orderbookSubscriptions ∧
    (subscribeToOrderbook sA c m).orderbookIntervals =
      (subscribeToOrderbook sB c m).orderbookIntervals ∧
    (subscribeToOrderbook sA c m).nextIntervalId =
      (subscribeToOrderbook sB c m).nextIntervalId := by
  cases hg : mapGet sB.orderbookSubscriptions m with
  | some subs =>
      have hgA : mapGet sA.orderbookSubscriptions m = some subs := by rw [hs, hg]
      have hhA : mapHas sA.orderbookSubscriptions m = true := by simp [mapHas, hgA]
      have hhB : mapHas sB.orderbookSubscriptions m = true := by simp [mapHas, hg]
      rw [subscribeToOrderbook_of_has sA c m hhA, subscribeToOrderbook_of_has sB c m hhB]
      refine ⟨addSubscriber_subs_congr sA sB c m hs, ?_, ?_⟩
      · rw [addSubscriber_intervals, addSubscriber_intervals, hi]
      · rw [addSubscriber_nextId, addSubscriber_nextId, hn]
  | none =>
      have hgA : mapGet sA.orderbookSubscriptions m = none := by rw [hs, hg]
      rw [subscribeToOrderbook_subs_of_none sA c m hgA,
        subscribeToOrderbook_subs_of_none sB c m hg, hs]
      refine ⟨rfl, ?_, ?_⟩
      · have hhA : mapHas sA.orderbookSubscriptions m = false := by simp [mapHas, hgA]
        have hhB : mapHas sB.orderbookSubscriptions m = false := by simp [mapHas, hg]
        rw [subscribeToOrderbook_of_not_has sA c m hhA,
          subscribeToOrderbook_of_not_has sB c m hhB,
          addSubscriber_intervals, addSubscriber_intervals,
          startOrderbookPolling_intervals_eq, startOrderbookPolling_intervals_eq]
        simp [hi, hn]
      · have hhA : mapHas sA.orderbookSubscriptions m = false := by simp [mapHas, hgA]
        have hhB : mapHas sB.orderbookSubscriptions m = false := by simp [mapHas, hg]
        rw [subscribeToOrderbook_of_not_has sA c m hhA,
          subscribeToOrderbook_of_not_has sB c m hhB,
          addSubscriber_nextId, addSubscriber_nextId,
          startOrderbookPolling_nextId, startOrderbookPolling_nextId]
        simp [hn]

/-- The state reached by the bookkeeping prefix of handleSubscribe: the
client record gains the freshly built subscription key.  Named so later
congruence arguments can refer to it. -/
def withClientSub (s : WebSocketService) (c : ClientId) (client : ClientState)
    (key : String) : WebSocketService :=
  { s with clients := mapSet s.clients c { client with subscriptions := setAdd client.subscriptions key } }

/-- C3 counterexample: the subscription key is channel, a colon, and
JSON.stringify of the params object, which emits fields in insertion order.
The two parameter lists below are permutations of one another, i.e. logically
identical maps listed in different orders, yet they produce two different
subscription keys, refuting the claimed canonicality under parameter
ordering. -/
theorem C3_key_order_counterexample :
    List.Perm
      [(("market_id"), JsValue.str ("M1")), (("depth"), JsValue.num 5)]
      [(("depth"), JsValue.num 5), (("market_id"), JsValue.str ("M1"))] ∧
    buildSubscriptionKey (some (JsValue.str ("orderbook")))
        (some (JsValue.obj [(("market_id"), JsValue.str ("M1")), (("depth"), JsValue.num 5)])) ≠
      buildSubscriptionKey (some (JsValue.str ("orderbook")))
        (some (JsValue.obj [(("depth"), JsValue.num 5), (("market_id"), JsValue.str ("M1"))])) := by
  constructor
  · exact List.Perm.swap _ _ _
  · decide

/-- C3 amended: differently ordered but logically identical params produce
different subscription keys (see the counterexample), but for the orderbook
channel the backing PollTask is keyed by params.market_id alone, so two
subscribe requests whose params agree on market_id leave identical
subscription registries and PollTask pools behind, regardless of the order
or content of the remaining fields. -/
theorem C3_same_market_shares_polltask (s : WebSocketService) (c : ClientId)
    (f1 f2 : List (String × JsValue))
    (h : mapGet f1 ("market_id") = mapGet f2 ("market_id")) :
    ((handleSubscribe s c (JsValue.obj
        [(("type"), JsValue.str ("subscribe")),
         (("channel"), JsValue.str ("orderbook")),
         (("params"), JsValue.obj f1)])).state.orderbookSubscriptions =
      (handleSubscribe s c (JsValue.obj
        [(("type"), JsValue.str ("subscribe")),
         (("channel"), JsValue.str ("orderbook")),
         (("params"), JsValue.obj f2)])).state.orderbookSubscriptions) ∧
    ((handleSubscribe s c (JsValue.obj
        [(("type"), JsValue.str ("subscribe")),
         (("channel"), JsValue.str ("orderbook")),
         (("params"), JsValue.obj f1)])).state.orderbookIntervals =
      (handleSubscribe s c (JsValue.obj
        [(("type"), JsValue.str ("subscribe")),
         (("channel"), JsValue.str ("orderbook")),
         (("params"), JsValue.obj f2)])).state.orderbookIntervals) := by
  cases hcl : mapGet s.clients c with
  | none =>
      unfold handleSubscribe
      rw [hcl]
      exact ⟨rfl, rfl⟩
  | some client =>
      unfold handleSubscribe
      rw [hcl]
      simp only [jsMember, jsField, mapGet, jsMemberOpt, optVal,
        String.reduceEq, reduceIte]
      rw [h]
      by_cases ht : truthy (mapGet f2 ("market_id"))
      · simp only [ht, if_true]
        have hcon := subscribeToOrderbook_registry_congr
          (withClientSub s c client (buildSubscriptionKey
            (some (JsValue.str ("orderbook"))) (some (JsValue.obj f1))))
          (withClientSub s c client (buildSubscriptionKey
            (some (JsValue.str ("orderbook"))) (some (JsValue.obj f2))))
          c (optVal (mapGet f2 ("market_id"))) rfl rfl rfl
        exact ⟨hcon.1, hcon.2.1⟩
      · simp only [ht, if_false]
        exact ⟨rfl, rfl⟩

/-- Witness for the amended C3 theorem: two concrete param objects listing
market_id and a second field in opposite orders. -/
theorem C3_same_market_shares_polltask_witness :
    mapGet [(("market_id"), JsValue.str ("M1")), (("depth"), JsValue.num 5)] ("market_id") =
      mapGet [(("depth"), JsValue.num 5), (("market_id"), JsValue.str ("M1"))] ("market_id") ∧
    (handleSubscribe initialService ("c1") (JsValue.obj
        [(("type"), JsValue.str ("subscribe")),
         (("channel"), JsValue.str ("orderbook")),
         (("params"), JsValue.obj [(("market_id"), JsValue.str ("M1")), (("depth"), JsValue.num 5)])])).state.orderbookSubscriptions =
      (handleSubscribe initialService ("c1") (JsValue.obj
        [(("type"), JsValue.str ("subscribe")),
         (("channel"), JsValue.str ("orderbook")),
         (("params"), JsValue.obj [(("depth"), JsValue.num 5), (("market_id"), JsValue.str ("M1"))])])).state.orderbookSubscriptions :=
  ⟨by decide,
   (C3_same_market_shares_polltask initialService ("c1")
     [(("market_id"), JsValue.str ("M1")), (("depth"), JsValue.num 5)]
     [(("depth"), JsValue.num 5), (("market_id"), JsValue.str ("M1"))]
     (by decide)).1⟩

theorem fetchOrderbookData_of_error (env : FetchEnv) (m : JsValue) (e : String)
    (h : env.getMarket m = Except.error e) :
    fetchOrderbookData env m = Except.error e := by
  unfold fetchOrderbookData
  rw [h]
  rfl

theorem pollOrderbook_of_fetch_error (env : FetchEnv) (s : WebSocketService)
    (m : JsValue) (ts : String) (e : String) (h : env.getMarket m = Except.error e) :
    pollOrderbook env s m ts = [] := by
  unfold pollOrderbook pollOrderbookBody
  rw [fetchOrderbookData_of_error env m e h]
  rfl

theorem pollOrderbook_of_fetch_ok (env : FetchEnv) (s : WebSocketService)
    (m : JsValue) (ts : String) (d : List JsValue)
    (h : fetchOrderbookData env m = Except.ok (some d)) :
    pollOrderbook env s m ts = broadcastOrderbook s m (orderbookMessage m d ts) := by
  unfold pollOrderbook pollOrderbookBody
  rw [h]
  rfl

theorem pollOrderbook_of_fetch_skip (env : FetchEnv) (s : WebSocketService)
    (m : JsValue) (ts : String)
    (h : fetchOrderbookData env m = Except.ok none) :
    pollOrderbook env s m ts = [] := by
  unfold pollOrderbook pollOrderbookBody
  rw [h]
  rfl

theorem pollOrderbook_eq_nil_or_broadcast (env : FetchEnv) (s : WebSocketService)
    (m : JsValue) (ts : String) :
    pollOrderbook env s m ts = [] ∨
      ∃ d, pollOrderbook env s m ts = broadcastOrderbook s m (orderbookMessage m d ts) := by
  cases hf : fetchOrderbookData env m with
  | error e =>
      left
      unfold pollOrderbook pollOrderbookBody
      rw [hf]
      rfl
  | ok od =>
      cases od with
      | none => exact Or.inl (pollOrderbook_of_fetch_skip env s m ts hf)
      | some d => exact Or.inr ⟨d, pollOrderbook_of_fetch_ok env s m ts d hf⟩

theorem mem_sendToClient (s : WebSocketService) (c0 : ClientId) (data : JsValue)
    (p : ClientId × JsValue) (h : p ∈ sendToClient s c0 data) :
    ∃ st, mapGet s.clients c0 = some st ∧ st.wsOpen = true ∧ p = (c0, data) := by
  unfold sendToClient at h
  cases hg : mapGet s.clients c0 with
  | none =>
      rw [hg] at h
      simp at h
  | some st =>
      rw [hg] at h
      by_cases ho : st.wsOpen = true
      · simp only [ho, if_true, List.mem_singleton] at h
        exact ⟨st, rfl, ho, h⟩
      · simp only [Bool.not_eq_true] at ho
        simp [ho] at h

theorem mem_sendFold (s : WebSocketService) (message : JsValue)
    (subs : List ClientId) (p : ClientId × JsValue)
    (h : p ∈ subs.foldr (fun c acc => sendToClient s c message ++ acc) []) :
    ∃ c0, c0 ∈ subs ∧ p ∈ sendToClient s c0 message := by
  induction subs with
  | nil => simp at h
  | cons c0 rest ih =>
      rw [List.foldr_cons, List.mem_append] at h
      rcases h with h | h
      · exact ⟨c0, by simp, h⟩
      · obtain ⟨c1, hc1, hm⟩ := ih h
        exact ⟨c1, by simp [hc1], hm⟩

theorem sendFold_eq_map (s : WebSocketService) (message : JsValue)
    (subs : List ClientId)
    (hopen : ∀ c ∈ subs, ∃ st, mapGet s.clients c = some st ∧ st.wsOpen = true) :
    subs.foldr (fun c acc => sendToClient s c message ++ acc) [] =
      subs.map (fun c => (c, message)) := by
  induction subs with
  | nil => rfl
  | cons c0 rest ih =>
      obtain ⟨st, hst, ho⟩ := hopen c0 (by simp)
      rw [List.foldr_cons, List.map_cons, ih (fun c hc => hopen c (by simp [hc]))]
      unfold sendToClient
      rw [hst]
      simp [ho]

theorem broadcastOrderbook_mem (s : WebSocketService) (m message : JsValue)
    (p : ClientId × JsValue) (h : p ∈ broadcastOrderbook s m message) :
    holdsKey s p.1 m ∧ p.2 = message := by
  unfold broadcastOrderbook at h
  cases hg : mapGet s.orderbookSubscriptions m with
  | none =>
      rw [hg] at h
      simp at h
  | some subs =>
      rw [hg] at h
      by_cases hl : subs.length > 0
      · simp only [hl, if_true] at h
        obtain ⟨c0, hc0, hm⟩ := mem_sendFold s message subs p h
        obtain ⟨st, _, _, hp⟩ := mem_sendToClient s c0 message p hm
        subst hp
        exact ⟨⟨subs, hg, hc0⟩, rfl⟩
      · simp [hl] at h

theorem broadcastOrderbook_of_none (s : WebSocketService) (m message : JsValue)
    (h : mapGet s.orderbookSubscriptions m = none) :
    broadcastOrderbook s m message = [] := by
  unfold broadcastOrderbook
  rw [h]

theorem broadcastOrderbook_all_open (s : WebSocketService) (m message : JsValue)
    (subs : List ClientId) (hg : mapGet s.orderbookSubscriptions m = some subs)
    (hopen : ∀ c ∈ subs, ∃ st, mapGet s.clients c = some st ∧ st.wsOpen = true) :
    broadcastOrderbook s m message = subs.map (fun c => (c, message)) := by
  unfold broadcastOrderbook
  rw [hg]
  by_cases hl : subs.length > 0
  · simp only [hl, if_true]
    exact sendFold_eq_map s message subs hopen
  · have : subs = [] := by
      cases subs with
      | nil => rfl
      | cons a rest => simp at hl
    subst this
    simp

/-- A connected, open demo client holding one subscription key. -/
def demoClient : ClientState := ⟨true, [("k1")]⟩

/-- A demo service state: one open client subscribed to market M1, whose
PollTask interval is active. -/
def demoService : WebSocketService :=
  ⟨[(("c1"), demoClient)], false,
   [(JsValue.str ("M1"), [("c1")])], [(JsValue.str ("M1"), 0)], 1⟩

/-- A fetch environment in which every upstream call rejects. -/
def demoFailEnv : FetchEnv :=
  ⟨fun _ => Except.error ("ECONNRESET"), fun _ => Except.error ("ECONNRESET")⟩

/-- A market object with one token, as gammaService would resolve it. -/
def demoMarket : JsValue :=
  JsValue.obj [(("tokens"), JsValue.arr
    [JsValue.obj [(("token_id"), JsValue.str ("T1")), (("outcome"), JsValue.str ("YES"))]])]

/-- A fetch environment in which getMarket resolves to demoMarket and
getOrderbook resolves to an empty object. -/
def demoOkEnv : FetchEnv :=
  ⟨fun _ => Except.ok demoMarket, fun _ => Except.ok (JsValue.obj [])⟩

/-- The combined orderbook data pollOrderbook assembles from demoOkEnv. -/
def demoData : List JsValue :=
  [JsValue.obj [(("token_id"), JsValue.str ("T1")), (("outcome"), JsValue.str ("YES")),
    (("orderbook"), JsValue.obj [])]]

/-- C8: a poll broadcast for market m reaches only connections registered in
the m subscriber set at delivery time, each receiving the broadcast message
itself (first conjunct); when every registered subscriber is a live open
connection the delivery list is exactly one frame per registered subscriber
in registry order (second conjunct); and a fetch cycle that completes after
the last subscriber left, the subscriber-set entry for m being gone, is a
no-op broadcast delivering to no one (third conjunct). -/
theorem C8_broadcast_exact (env : FetchEnv) (s : WebSocketService)
    (m message : JsValue) (ts : String) :
    (∀ p : ClientId × JsValue, p ∈ broadcastOrderbook s m message →
        holdsKey s p.1 m ∧ p.2 = message) ∧
    (∀ subs, mapGet s.orderbookSubscriptions m = some subs →
        (∀ c ∈ subs, ∃ st, mapGet s.clients c = some st ∧ st.wsOpen = true) →
        broadcastOrderbook s m message = subs.map (fun c => (c, message))) ∧
    (mapGet s.orderbookSubscriptions m = none → pollOrderbook env s m ts = []) := by
  refine ⟨fun p hp => broadcastOrderbook_mem s m message p hp,
    fun subs hg hopen => broadcastOrderbook_all_open s m message subs hg hopen,
    fun hnone => ?_⟩
  rcases pollOrderbook_eq_nil_or_broadcast env s m ts with h | ⟨d, h⟩
  · exact h
  · rw [h]
    exact broadcastOrderbook_of_none s m _ hnone

/-- Witness for C8 at the demo state: the lone registered open subscriber
receives exactly the broadcast frame. -/
theorem C8_broadcast_exact_witness :
    broadcastOrderbook demoService (JsValue.str ("M1")) (JsValue.str ("payload")) =
      [(("c1"), JsValue.str ("payload"))] :=
  (C8_broadcast_exact demoFailEnv demoService (JsValue.str ("M1"))
      (JsValue.str ("payload")) ("TS")).2.1 [("c1")] (by decide)
    (by
      intro c hc
      simp only [List.mem_singleton] at hc
      subst hc
      exact ⟨demoClient, rfl, rfl⟩)

/-- C7: with the PollTask for market m in place, K consecutive cycles whose
fetch rejects deliver nothing each (the catch logs and skips the cycle), and
a following successful cycle delivers exactly one update frame to every
registered open subscriber; the service state, including the interval pool
entry backing the schedule, is referenced read-only by every cycle: the
translation of pollOrderbook returns no state because the method contains no
assignment, so fetch failures cannot tear the PollTask down — only the
unsubscribe path does. -/
theorem C7_fail_cycles_then_success (K : Nat) (envF envS : FetchEnv)
    (s : WebSocketService) (m : JsValue) (ts : String) (e : String)
    (hf : envF.getMarket m = Except.error e)
    (orderbookData : List JsValue)
    (hS : fetchOrderbookData envS m = Except.ok (some orderbookData))
    (subs : List ClientId)
    (hsubs : mapGet s.orderbookSubscriptions m = some subs)
    (hnd : subs.Nodup)
    (hopen : ∀ c ∈ subs, ∃ st, mapGet s.clients c = some st ∧ st.wsOpen = true) :
    runPollCycles (List.replicate K envF ++ [envS]) s m ts =
      List.replicate K [] ++
        [subs.map (fun c => (c, orderbookMessage m orderbookData ts))] ∧
    ∀ c ∈ subs,
      @List.count (ClientId × JsValue) instBEqOfDecidableEq
          (c, orderbookMessage m orderbookData ts)
          (subs.map (fun c2 => (c2, orderbookMessage m orderbookData ts))) = 1 := by
  constructor
  · unfold runPollCycles
    rw [List.map_append, List.map_replicate,
      pollOrderbook_of_fetch_error envF s m ts e hf, List.map_cons, List.map_nil,
      pollOrderbook_of_fetch_ok envS s m ts orderbookData hS,
      broadcastOrderbook_all_open s m _ subs hsubs hopen]
  · intro c hc
    exact (List.count_map_of_injective subs
      (fun c2 => (c2, orderbookMessage m orderbookData ts))
      (fun a b hab => by simpa using congrArg Prod.fst hab) c).trans
      (List.count_eq_one_of_mem hnd hc)

/-- Witness for C7: three failing cycles then one successful cycle against
the demo state. -/
theorem C7_fail_cycles_then_success_witness :
    runPollCycles (List.replicate 3 demoFailEnv ++ [demoOkEnv]) demoService
        (JsValue.str ("M1")) ("TS") =
      List.replicate 3 [] ++
        [[(("c1"), orderbookMessage (JsValue.str ("M1")) demoData ("TS"))]] :=
  ((C7_fail_cycles_then_success 3 demoFailEnv demoOkEnv demoService
      (JsValue.str ("M1")) ("TS") ("ECONNRESET") rfl demoData rfl
      [("c1")] (by decide) (by decide)
      (by
        intro c hc
        simp only [List.mem_singleton] at hc
        subst hc
        exact ⟨demoClient, rfl, rfl⟩)).1)

/-- C4 counterexample: a successful poll cycle against a live subscriber
delivers the frame built by pollOrderbook, whose type field is the bare
string orderbook — not a string ending in suffix update as the claimed
envelope requires — and which has no channel field and no data field: the
payload (market_id, orderbook, timestamp) sits at the top level. -/
theorem C4_envelope_counterexample :
    pollOrderbook demoOkEnv demoService (JsValue.str ("M1")) ("TS") =
      [(("c1"), orderbookMessage (JsValue.str ("M1")) demoData ("TS"))] ∧
    jsField (orderbookMessage (JsValue.str ("M1")) demoData ("TS")) ("type") =
      some (JsValue.str ("orderbook")) ∧
    ¬ List.IsSuffix (("_update" : String).data) (("orderbook" : String).data) ∧
    jsField (orderbookMessage (JsValue.str ("M1")) demoData ("TS")) ("channel") = none ∧
    jsField (orderbookMessage (JsValue.str ("M1")) demoData ("TS")) ("data") = none := by
  exact ⟨by decide, by decide, by decide, by decide, by decide⟩

/-- C4 amended: every frame a poll cycle delivers for market m is the
orderbook message: type is the bare string orderbook, the market id, the
combined orderbook array and the timestamp sit at the top level, and there
is neither a channel field nor a data envelope. -/
theorem C4_update_frame_shape (env : FetchEnv) (s : WebSocketService)
    (m : JsValue) (ts : String) (p : ClientId × JsValue)
    (hp : p ∈ pollOrderbook env s m ts) :
    jsField p.2 ("type") = some (JsValue.str ("orderbook")) ∧
    jsField p.2 ("channel") = none ∧
    jsField p.2 ("data") = none ∧
    jsField p.2 ("market_id") = some m ∧
    (jsField p.2 ("orderbook")).isSome = true ∧
    jsField p.2 ("timestamp") = some (JsValue.str ts) := by
  rcases pollOrderbook_eq_nil_or_broadcast env s m ts with h | ⟨d, h⟩
  · rw [h] at hp
    simp at hp
  · rw [h] at hp
    obtain ⟨_, hmsg⟩ := broadcastOrderbook_mem s m _ p hp
    rw [hmsg]
    simp [orderbookMessage, jsField, mapGet]

/-- Witness for the amended C4 theorem at the demo poll cycle. -/
theorem C4_update_frame_shape_witness :
    jsField (orderbookMessage (JsValue.str ("M1")) demoData ("TS")) ("type") =
      some (JsValue.str ("orderbook")) ∧
    jsField (orderbookMessage (JsValue.str ("M1")) demoData ("TS")) ("channel") = none ∧
    jsField (orderbookMessage (JsValue.str ("M1")) demoData ("TS")) ("data") = none ∧
    jsField (orderbookMessage (JsValue.str ("M1")) demoData ("TS")) ("market_id") =
      some (JsValue.str ("M1")) ∧
    (jsField (orderbookMessage (JsValue.str ("M1")) demoData ("TS")) ("orderbook")).isSome = true ∧
    jsField (orderbookMessage (JsValue.str ("M1")) demoData ("TS")) ("timestamp") =
      some (JsValue.str ("TS")) :=
  C4_update_frame_shape demoOkEnv demoService (JsValue.str ("M1")) ("TS")
    ((("c1"), orderbookMessage (JsValue.str ("M1")) demoData ("TS"))) (by decide)

theorem mapGet_mapSet_wsOpen (l : List (ClientId × ClientState)) (c : ClientId)
    (client client1 : ClientState) (hw : client1.wsOpen = client.wsOpen)
    (hc : mapGet l c = some client) (id : ClientId) :
    (mapGet (mapSet l c client1) id).map ClientState.wsOpen =
      (mapGet l id).map ClientState.wsOpen := by
  by_cases h : c = id
  · subst h
    rw [mapGet_mapSet_self, hc]
    simp [hw]
  · rw [mapGet_mapSet_ne _ _ _ _ h]

theorem handleSubscribe_clients_wsOpen (s : WebSocketService) (c : ClientId)
    (data : JsValue) (id : ClientId) :
    (mapGet (handleSubscribe s c data).state.clients id).map ClientState.wsOpen =
      (mapGet s.clients id).map ClientState.wsOpen := by
  unfold handleSubscribe
  cases hcl : mapGet s.clients c with
  | none => rfl
  | some client =>
      try dsimp only []
      cases hch : jsMember data ("channel") with
      | error e => rfl
      | ok channel =>
          try dsimp only []
          cases hpr : jsMember data ("params") with
          | error e => rfl
          | ok params =>
              try dsimp only []
              cases hgd : (if channel = some (JsValue.str ("orderbook"))
                  then jsMemberOpt params ("market_id")
                  else Except.ok none) with
              | error e =>
                  try dsimp only []
                  exact mapGet_mapSet_wsOpen s.clients c client
                    { client with subscriptions := setAdd client.subscriptions (buildSubscriptionKey channel params) }
                    rfl hcl id
              | ok marketIdField =>
                  try dsimp only []
                  by_cases ht : truthy marketIdField = true
                  · simp only [ht, if_true]
                    rw [subscribeToOrderbook_clients]
                    exact mapGet_mapSet_wsOpen s.clients c client
                      { client with subscriptions := setAdd client.subscriptions (buildSubscriptionKey channel params) }
                      rfl hcl id
                  · simp only [Bool.not_eq_true] at ht
                    simp only [ht, Bool.false_eq_true, if_false]
                    exact mapGet_mapSet_wsOpen s.clients c client
                      { client with subscriptions := setAdd client.subscriptions (buildSubscriptionKey channel params) }
                      rfl hcl id

theorem handleUnsubscribe_clients_wsOpen (s : WebSocketService) (c : ClientId)
    (data : JsValue) (id : ClientId) :
    (mapGet (handleUnsubscribe s c data).state.clients id).map ClientState.wsOpen =
      (mapGet s.clients id).map ClientState.wsOpen := by
  unfold handleUnsubscribe
  cases hcl : mapGet s.clients c with
  | none => rfl
  | some client =>
      try dsimp only []
      cases hch : jsMember data ("channel") with
      | error e => rfl
      | ok channel =>
          try dsimp only []
          cases hpr : jsMember data ("params") with
          | error e => rfl
          | ok params =>
              try dsimp only []
              cases hgd : (if channel = some (JsValue.str ("orderbook"))
                  then jsMemberOpt params ("market_id")
                  else Except.ok none) with
              | error e =>
                  try dsimp only []
                  exact mapGet_mapSet_wsOpen s.clients c client
                    { client with subscriptions := setDelete client.subscriptions (buildSubscriptionKey channel params) }
                    rfl hcl id
              | ok marketIdField =>
                  try dsimp only []
                  by_cases ht : truthy marketIdField = true
                  · simp only [ht, if_true]
                    rw [unsubscribeFromOrderbook_clients]
                    exact mapGet_mapSet_wsOpen s.clients c client
                      { client with subscriptions := setDelete client.subscriptions (buildSubscriptionKey channel params) }
                      rfl hcl id
                  · simp only [Bool.not_eq_true] at ht
                    simp only [ht, Bool.false_eq_true, if_false]
                    exact mapGet_mapSet_wsOpen s.clients c client
                      { client with subscriptions := setDelete client.subscriptions (buildSubscriptionKey channel params) }
                      rfl hcl id

theorem handleClientMessage_clients_wsOpen (s : WebSocketService) (c : ClientId)
    (data : JsValue) (id : ClientId) :
    (mapGet (handleClientMessage s c data).state.clients id).map ClientState.wsOpen =
      (mapGet s.clients id).map ClientState.wsOpen := by
  unfold handleClientMessage
  cases hcl : mapGet s.clients c with
  | none => rfl
  | some client =>
      cases hty : jsMember data ("type") with
      | error e => rfl
      | ok t =>
          by_cases h1 : t = some (JsValue.str ("subscribe"))
          · simp only [h1, if_true]
            exact handleSubscribe_clients_wsOpen s c data id
          · simp only [h1, if_false]
            by_cases h2 : t = some (JsValue.str ("unsubscribe"))
            · simp only [h2, if_true]
              exact handleUnsubscribe_clients_wsOpen s c data id
            · simp only [h2, if_false]
              by_cases h3 : t = some (JsValue.str ("ping"))
              · simp only [h3, if_true]
              · simp only [h3, if_false]

/-- A minimal service with one open client holding no subscriptions, for the
malformed-message scenarios. -/
def plainService : WebSocketService :=
  ⟨[(("c1"), ClientState.mk true [])], false, [], [], 0⟩

/-- A subscribe frame for the orderbook channel that carries no params
object: the malformed message named by the claim. -/
def malformedSubscribe : JsValue :=
  JsValue.obj [(("type"), JsValue.str ("subscribe")), (("channel"), JsValue.str ("orderbook"))]

/-- C5 counterexample: processing the orderbook subscribe with no params is
not a pure ignore.  Before the handler throws its TypeError (reading
market_id of undefined), it has already added the key orderbook:undefined to
the client subscription set, so the state after the message differs from
the state before; the error is caught (no ack is sent, the connection
survives), but the message was not left without effect as the claim
states. -/
theorem C5_ignored_counterexample :
    (wsOnMessage plainService ("c1") (Except.ok malformedSubscribe)).1 ≠ plainService ∧
    (mapGet (wsOnMessage plainService ("c1") (Except.ok malformedSubscribe)).1.clients
        ("c1")).map ClientState.subscriptions = some [("orderbook:undefined")] ∧
    (handleClientMessage plainService ("c1") malformedSubscribe).err.isSome = true ∧
    (handleClientMessage plainService ("c1") malformedSubscribe).sent = [] := by
  exact ⟨by decide, by decide, by decide, by decide⟩

/-- C5 amended: no exception escapes the message callback and the connection
survives every inbound frame: the registered client set and each client
open flag are untouched by any message (first conjunct); an unparseable
frame is logged and fully ignored (second conjunct); a parsed frame of
unknown type is logged and fully ignored (third conjunct).  A subscribe for
the orderbook channel without params, however, mutates the client
subscription set before its TypeError is caught, as the counterexample
shows, so malformed subscribes are absorbed but not effect-free. -/
theorem C5_no_crash (s : WebSocketService) (c : ClientId)
    (parsed : Except String JsValue) :
    (∀ id, (mapGet (wsOnMessage s c parsed).1.clients id).map ClientState.wsOpen =
        (mapGet s.clients id).map ClientState.wsOpen) ∧
    (∀ e, parsed = Except.error e → wsOnMessage s c parsed = (s, [], [])) ∧
    (∀ data t, parsed = Except.ok data → jsMember data ("type") = Except.ok t →
        t ≠ some (JsValue.str ("subscribe")) →
        t ≠ some (JsValue.str ("unsubscribe")) →
        t ≠ some (JsValue.str ("ping")) →
        wsOnMessage s c parsed = (s, [], [])) := by
  refine ⟨?_, ?_, ?_⟩
  · intro id
    cases parsed with
    | error e => rfl
    | ok data => exact handleClientMessage_clients_wsOpen s c data id
  · intro e he
    subst he
    rfl
  · intro data t hp hty h1 h2 h3
    subst hp
    unfold wsOnMessage
    have hcm : handleClientMessage s c data = ⟨s, [], [], none⟩ := by
      unfold handleClientMessage
      cases hcl : mapGet s.clients c with
      | none => rfl
      | some client =>
          rw [hty]
          simp [h1, h2, h3]
    dsimp only []
    rw [hcm]

/-- Witness for the amended C5 theorem: the malformed subscribe leaves the
client open, and an unparseable frame is a no-op. -/
theorem C5_no_crash_witness :
    (mapGet (wsOnMessage plainService ("c1") (Except.ok malformedSubscribe)).1.clients
        ("c1")).map ClientState.wsOpen =
      (mapGet plainService.clients ("c1")).map ClientState.wsOpen ∧
    wsOnMessage plainService ("c1") (Except.error ("bad json")) = (plainService, [], []) :=
  ⟨(C5_no_crash plainService ("c1") (Except.ok malformedSubscribe)).1 ("c1"),
   (C5_no_crash plainService ("c1") (Except.error ("bad json"))).2.1 ("bad json") rfl⟩

theorem mapGet_eq_of_mem_nodup {κ α : Type} [DecidableEq κ]
    (l : List (κ × α)) (k : κ) (v : α)
    (hnd : (l.map Prod.fst).Nodup) (hm : (k, v) ∈ l) : mapGet l k = some v := by
  induction l with
  | nil => simp at hm
  | cons hd tl ih =>
      obtain ⟨k0, v0⟩ := hd
      simp only [List.map_cons, List.nodup_cons] at hnd
      rcases List.mem_cons.mp hm with h | h
      · obtain ⟨h1, h2⟩ := Prod.mk.injEq .. ▸ h
        subst h1
        subst h2
        simp [mapGet]
      · have hk : k0 ≠ k := by
          intro he
          subst he
          exact hnd.1 (List.mem_map_of_mem Prod.fst h)
        simp only [mapGet, if_neg hk]
        exact ih hnd.2 h

theorem bpFold_no_subs (s : WebSocketService) (message : JsValue)
    (l : List (ClientId × ClientState))
    (h : ∀ cid st, (cid, st) ∈ l → st.subscriptions = []) :
    l.foldr (fun entry acc =>
      (if isClientSubscribed entry.2 message then sendToClient s entry.1 message else []) ++ acc)
      [] = [] := by
  induction l with
  | nil => rfl
  | cons e rest ih =>
      rw [List.foldr_cons]
      have he : e.2.subscriptions = [] := h e.1 e.2 (by simp)
      have hns : isClientSubscribed e.2 message = false := by
        simp [isClientSubscribed, he]
      rw [hns]
      simp only [Bool.false_eq_true, if_false, List.nil_append]
      exact ih (fun cid st hm => h cid st (List.mem_cons_of_mem _ hm))

theorem bpFold_mem (s : WebSocketService) (message : JsValue)
    (l : List (ClientId × ClientState)) (p : ClientId × JsValue)
    (h : p ∈ l.foldr (fun entry acc =>
      (if isClientSubscribed entry.2 message then sendToClient s entry.1 message else []) ++ acc)
      []) :
    ∃ e, e ∈ l ∧ isClientSubscribed e.2 message = true ∧ p ∈ sendToClient s e.1 message := by
  induction l with
  | nil => simp at h
  | cons e rest ih =>
      rw [List.foldr_cons, List.mem_append] at h
      rcases h with h | h
      · by_cases hs : isClientSubscribed e.2 message = true
        · rw [hs] at h
          simp only [if_true] at h
          exact ⟨e, by simp, hs, h⟩
        · simp only [Bool.not_eq_true] at hs
          rw [hs] at h
          simp at h
      · obtain ⟨e2, he2, hs2, hm2⟩ := ih h
        exact ⟨e2, by simp [he2], hs2, hm2⟩

theorem bpFold_all_open (s : WebSocketService) (message : JsValue)
    (l : List (ClientId × ClientState))
    (h : ∀ e ∈ l, mapGet s.clients e.1 = some e.2 ∧ e.2.wsOpen = true) :
    l.foldr (fun entry acc =>
      (if isClientSubscribed entry.2 message then sendToClient s entry.1 message else []) ++ acc)
      [] =
      (l.filter (fun e => isClientSubscribed e.2 message)).map (fun e => (e.1, message)) := by
  induction l with
  | nil => rfl
  | cons e rest ih =>
      rw [List.foldr_cons, List.filter_cons,
        ih (fun e2 he2 => h e2 (List.mem_cons_of_mem _ he2))]
      by_cases hs : isClientSubscribed e.2 message = true
      · obtain ⟨hg, ho⟩ := h e (by simp)
        simp only [hs, if_true, List.map_cons]
        unfold sendToClient
        rw [hg]
        simp [ho]
      · simp only [Bool.not_eq_true] at hs
        simp [hs]

/-- C9: an upstream Polymarket frame received while the bridge is connected
is forwarded by broadcastPolymarketData under the coarse interest heuristic
of isClientSubscribed: if no client holds any subscription at all, nothing
is delivered (first conjunct); every delivered frame is the raw upstream
message going to some registered client that holds at least one
subscription (second conjunct); and when the client registry has no
duplicate ids and all transports are open, the delivery list is exactly one
copy of the message per client holding at least one subscription, in
registration order, with no per-resource filtering (third conjunct). -/
theorem C9_upstream_fanout (s : WebSocketService) (message : JsValue) :
    ((∀ cid st, (cid, st) ∈ s.clients → st.subscriptions = []) →
        broadcastPolymarketData s message = []) ∧
    (∀ p : ClientId × JsValue, p ∈ broadcastPolymarketData s message →
        ∃ e, e ∈ s.clients ∧ isClientSubscribed e.2 message = true ∧
          p = (e.1, message)) ∧
    ((s.clients.map Prod.fst).Nodup →
      (∀ e ∈ s.clients, e.2.wsOpen = true) →
      broadcastPolymarketData s message =
        (s.clients.filter (fun e => isClientSubscribed e.2 message)).map
          (fun e => (e.1, message))) := by
  refine ⟨?_, ?_, ?_⟩
  · intro h
    exact bpFold_no_subs s message s.clients h
  · intro p hp
    obtain ⟨e, he, hs, hm⟩ := bpFold_mem s message s.clients p hp
    obtain ⟨st, _, _, hp2⟩ := mem_sendToClient s e.1 message p hm
    exact ⟨e, he, hs, hp2⟩
  · intro hnd hopen
    exact bpFold_all_open s message s.clients
      (fun e he => ⟨mapGet_eq_of_mem_nodup s.clients e.1 e.2 hnd
        (by cases e; exact he), hopen e he⟩)

/-- Witness for C9: the demo service has one open client holding one
subscription, which receives the raw upstream frame. -/
theorem C9_upstream_fanout_witness :
    broadcastPolymarketData demoService (JsValue.str ("tick")) =
      [(("c1"), JsValue.str ("tick"))] :=
  (C9_upstream_fanout demoService (JsValue.str ("tick"))).2.2 (by decide)
    (by
      intro e he
      simp only [demoService, List.mem_singleton] at he
      subst he
      rfl)
